import Mathlib

/-!
Shallow embedding of the kmscon `bbulk` bulk text-renderer backend
(`text_bbulk.c`, latest evolution as found alongside
`uterm_drm_shared_internal.h`), of the glyph rotator (`font_rotate.c`),
and of the allocation discipline of `bbulk_set`/`bbulk_unset`.

Machine integers are modelled as `Nat`; all index arithmetic in the
claims stays far below 2^32/2^64 under the stated hypotheses, and
unsigned C subtraction coincides with truncated `Nat` subtraction on the
in-range inputs the theorems quantify over.  C arrays that the renderer
owns (`prev`, `damages`) are modelled as total functions `Nat → _`
updated pointwise; blit requests and damage rectangles are accumulated
into lists (the C code appends into preallocated arrays through
`req_len`/`damage_rect_len`).  The external font-rendering service is a
collaborator outside the core (spec section 1), modelled as a total
width oracle `gw` for the draw path and as an explicit failure oracle
for `find_glyph`.
-/

/-- Screen orientations, from `enum Orientation` used throughout the source. -/
inductive KOrientation where
  | OR_NORMAL
  | OR_RIGHT
  | OR_UPSIDE_DOWN
  | OR_LEFT
deriving DecidableEq, Repr

/-- Cell attributes, from `struct tsm_screen_attr` as used by the renderer
(colour channels and the four style flags). -/
structure TsmAttr where
  fr : Nat
  fg : Nat
  fb : Nat
  br : Nat
  bg : Nat
  bb : Nat
  bold : Bool
  underline : Bool
  italic : Bool
  inverse : Bool
deriving DecidableEq, Repr

/-- The all-zero attribute record produced by `memset(bb, 0, ...)`. -/
def attrZero : TsmAttr := ⟨0, 0, 0, 0, 0, 0, false, false, false, false⟩

/-- Sentinel identity marking a cell that must be redrawn (`ID_DAMAGED`). -/
def ID_DAMAGED : Nat := 0xd41146edd41146ed

/-- Sentinel identity marking the right half of a double-width glyph
(`ID_OVERFLOW`). -/
def ID_OVERFLOW : Nat := 0x0c34f10110c34f10

/-- Max horizontal distance of two damaged cells to be merged in a damage
rectangle (`DAMAGE_MERGE_LEN`). -/
def DAMAGE_MERGE_LEN : Nat := 3

/-- Ceiling division, from `SHL_DIV_ROUND_UP(x, y) = ((x) + (y) - 1) / (y)`. -/
def shl_div_round_up (x y : Nat) : Nat := (x + y - 1) / y

/-- Pointwise update of an array modelled as a total function. -/
def upd {α : Type} (f : Nat → α) (i : Nat) (a : α) : Nat → α :=
  fun j => if j = i then a else f j

/-- One cell record of the diff state, from `struct bbcell`. -/
structure BBCell where
  id : Nat
  attr : TsmAttr
  overflow : Bool
deriving DecidableEq, Repr

/-- One blit request, from `struct uterm_video_blend_req`: target
coordinates, the referenced glyph bitmap (identified by the glyph id whose
cache entry `req->buf` points at), and the six colour channels. -/
structure BlendReq where
  x : Nat
  y : Nat
  glyph : Nat
  fr : Nat
  fg : Nat
  fb : Nat
  br : Nat
  bg : Nat
  bb : Nat
deriving DecidableEq, Repr

/-- A damage rectangle, from `struct uterm_video_rect`. -/
structure VRect where
  x1 : Nat
  y1 : Nat
  x2 : Nat
  y2 : Nat
deriving DecidableEq, Repr

/-- The static per-`set` configuration: grid geometry from
`txt->cols`/`txt->rows`, font cell size `FONT_WIDTH(txt)`/`FONT_HEIGHT(txt)`,
display size `bb->sw`/`bb->sh`, orientation, and the width (in cells) the
font service reports for each glyph id (`bb_glyph->width`, the service being
an external collaborator). -/
structure TxtConf where
  cols : Nat
  rows : Nat
  fontW : Nat
  fontH : Nat
  sw : Nat
  sh : Nat
  orientation : KOrientation
  gw : Nat → Nat

/-- The mutable renderer state, from `struct bbulk`: previous cell contents,
damage flags, the accumulated blit requests of the current frame, the default
attributes of the last `prepare`, the forced-redraw frame counter, and the
damage rectangles of the current frame. -/
structure BBState where
  prev : Nat → BBCell
  damages : Nat → Bool
  reqs : List BlendReq
  attr : TsmAttr
  redraw_margin : Nat
  damage_rect_list : List VRect

/-- Top left corner of a cell, from `set_coordinate`. -/
def set_coordinate (tc : TxtConf) (posx posy : Nat) : Nat × Nat :=
  match tc.orientation with
  | .OR_NORMAL => (posx * tc.fontW, posy * tc.fontH)
  | .OR_UPSIDE_DOWN => (tc.sw - (posx + 1) * tc.fontW, tc.sh - (posy + 1) * tc.fontH)
  | .OR_RIGHT => (tc.sw - (posy + 1) * tc.fontH, posx * tc.fontW)
  | .OR_LEFT => (posy * tc.fontH, tc.sh - (posx + 1) * tc.fontW)

/-- Build a blit request at the given coordinate, colours filled in from
`set_color` (foreground/background swapped when `attr->inverse`). -/
def mkReq (x y glyph : Nat) (attr : TsmAttr) : BlendReq :=
  if attr.inverse then
    ⟨x, y, glyph, attr.br, attr.bg, attr.bb, attr.fr, attr.fg, attr.fb⟩
  else
    ⟨x, y, glyph, attr.fr, attr.fg, attr.fb, attr.br, attr.bg, attr.bb⟩

/-- Mark one cell as damaged, from `damage_cell`. -/
def damage_cell (bb : BBState) (off : Nat) : BBState :=
  { bb with
    prev := upd bb.prev off { bb.prev off with id := ID_DAMAGED }
    damages := upd bb.damages off true }

/-- Grid geometry computed by `bbulk_set` from the display size, the font
cell size and the orientation: `(cols, rows)`. -/
def bbulk_set_geometry (sw sh fontW fontH : Nat) (o : KOrientation) : Nat × Nat :=
  if o = .OR_NORMAL ∨ o = .OR_UPSIDE_DOWN then
    (sw / fontW, sh / fontH)
  else
    (sh / fontW, sw / fontH)

/-- Renderer state right after a successful `bbulk_set`: arrays zeroed by
`memset`, then every cell passed through `damage_cell`. -/
def bbulk_set_state (tc : TxtConf) : BBState :=
  let bb0 : BBState :=
    { prev := fun _ => ⟨0, attrZero, false⟩
      damages := fun _ => false
      reqs := []
      attr := attrZero
      redraw_margin := 0
      damage_rect_list := [] }
  (List.range (tc.cols * tc.rows)).foldl damage_cell bb0

/-- Diff part of `bbulk_draw`: compares the incoming `(id, attr)` against the
stored cell record and updates the damage bookkeeping; `none` models the
early `return 0` paths that emit nothing. -/
def drawCheck (bb : BBState) (id : Nat) (width offset : Nat) (lastCol : Bool)
    (attr : TsmAttr) : Option BBState :=
  let p := bb.prev offset
  if p.id = id ∧ p.attr = attr then
    if (p.overflow = true ∨ width = 2) ∧ lastCol = false then
      if bb.damages offset = true ∨ bb.damages (offset + 1) = true ∨
          (bb.prev (offset + 1)).id = ID_DAMAGED then
        let d1 := upd bb.damages offset false
        let d2 := if (bb.prev (offset + 1)).id = ID_OVERFLOW then
            upd d1 (offset + 1) false
          else d1
        some { bb with
          damages := d2
          prev := upd bb.prev (offset + 1) { bb.prev (offset + 1) with id := ID_OVERFLOW } }
      else
        none
    else
      if bb.damages offset = true then
        some { bb with damages := upd bb.damages offset false }
      else
        none
  else
    let bb1 := { bb with damages := upd bb.damages offset true }
    some (if (p.overflow = true ∨ width = 2) ∧ lastCol = false then
        damage_cell bb1 (offset + 1)
      else bb1)

/-- Emit part of `bbulk_draw`: stores the new `(id, attr)`, resolves the
glyph (here through the width oracle `tc.gw`), updates the overflow flags,
and appends the blit request(s), anchoring a double-width glyph one cell to
the right for LEFT/UPSIDE_DOWN orientations; the trailing-space request is
synthesized when the terminal believes the cell is wide but the font
produced a single-width glyph. -/
def drawEmit (tc : TxtConf) (bb : BBState) (id : Nat) (width posx posy : Nat)
    (lastCol : Bool) (attr : TsmAttr) : BBState :=
  let offset := posx + posy * tc.cols
  let bb1 := { bb with prev := upd bb.prev offset { bb.prev offset with id := id, attr := attr } }
  let gwv := tc.gw id
  let bb2 :=
    if gwv = 2 ∧ lastCol = false then
      let pr1 := upd bb1.prev offset { bb1.prev offset with overflow := true }
      { bb1 with prev := upd pr1 (offset + 1) { bb1.prev (offset + 1) with overflow := false } }
    else
      { bb1 with prev := upd bb1.prev offset { bb1.prev offset with overflow := false } }
  let ov := (bb2.prev offset).overflow
  let anchor :=
    if ov = true ∧ (tc.orientation = .OR_LEFT ∨ tc.orientation = .OR_UPSIDE_DOWN) then
      posx + 1
    else posx
  let xy := set_coordinate tc anchor posy
  let bb3 := { bb2 with reqs := bb2.reqs ++ [mkReq xy.1 xy.2 id attr] }
  if width = 2 ∧ gwv = 1 ∧ lastCol = false then
    let xy2 := set_coordinate tc (posx + 1) posy
    { bb3 with reqs := bb3.reqs ++ [mkReq xy2.1 xy2.2 32 attr] }
  else bb3

/-- One cell draw, from `bbulk_draw`: the `width == 0` call is a no-op, a
continuation cell behind an overflow cell is skipped, otherwise the diff
check either skips or falls through to the emit path. -/
def bbulk_draw (tc : TxtConf) (bb : BBState) (id : Nat) (len width posx posy : Nat)
    (attr : TsmAttr) : BBState :=
  let offset := posx + posy * tc.cols
  let lastCol : Bool := decide (posx = tc.cols - 1)
  if width = 0 then bb
  else if len = 0 ∧ posx ≠ 0 ∧ (bb.prev (offset - 1)).overflow = true then bb
  else
    match drawCheck bb id width offset lastCol attr with
    | none => bb
    | some bb1 => drawEmit tc bb1 id width posx posy lastCol attr

/-- Frame driver segment: the terminal layer calling `draw` for `n`
consecutive columns of row `posy`, starting at column `posx`, each with the
same `(id, len, width, attr)` content. -/
def drawSeg (tc : TxtConf) (id len width : Nat) (attr : TsmAttr) (posy : Nat) :
    Nat → Nat → BBState → BBState
  | _, 0, bb => bb
  | posx, n + 1, bb =>
      drawSeg tc id len width attr posy (posx + 1) n
        (bbulk_draw tc bb id len width posx posy attr)

/-- Frame driver: `draw` called for `m` consecutive whole rows starting at
row `posy`, row-major, with identical content everywhere. -/
def drawRows (tc : TxtConf) (id len width : Nat) (attr : TsmAttr) :
    Nat → Nat → BBState → BBState
  | _, 0, bb => bb
  | posy, m + 1, bb =>
      drawRows tc id len width attr (posy + 1) m
        (drawSeg tc id len width attr posy 0 tc.cols bb)

/-- Frame driver: every cell of the grid drawn with identical content. -/
def drawFullGrid (tc : TxtConf) (id len width : Nat) (attr : TsmAttr) (bb : BBState) :
    BBState :=
  drawRows tc id len width attr 0 tc.rows bb

/-- Damage carry-over loop of `bbulk_prepare`: for every cell whose damage
flag is still set, restore the `ID_DAMAGED` sentinel. -/
def carryDamage (tc : TxtConf) (bb : BBState) : BBState :=
  (List.range (tc.cols * tc.rows)).foldl
    (fun b i =>
      if b.damages i = true then
        { b with prev := upd b.prev i { b.prev i with id := ID_DAMAGED } }
      else b)
    bb

/-- One `bbulk_prepare` call: resets the blit-request and damage-rectangle
lists, arms `redraw_margin = 2` when the default attributes changed, then
either fills the screen and damages every cell (margin armed or the display
demands a redraw), or re-marks carried-over damage, and finally decrements
the margin.  Returns the new state and whether `uterm_display_fill` was
called.  `need_redraw`/`has_damage` are the display sink oracles. -/
def bbulk_prepare (tc : TxtConf) (bb : BBState) (attr : TsmAttr)
    (need_redraw has_damage : Bool) : BBState × Bool :=
  let bbA := { bb with reqs := ([] : List BlendReq), damage_rect_list := ([] : List VRect) }
  let margin := if bb.attr = attr then bb.redraw_margin else 2
  let bbB := { bbA with attr := attr, redraw_margin := margin }
  let filled :=
    if margin ≠ 0 ∨ need_redraw = true then
      ((List.range (tc.cols * tc.rows)).foldl damage_cell bbB, true)
    else if has_damage = true then
      (carryDamage tc bbB, false)
    else
      (bbB, false)
  ({ filled.1 with redraw_margin := filled.1.redraw_margin - (if margin ≠ 0 then 1 else 0) },
    filled.2)

/-- State of the damage scan of `bbulk_compute_damage`: rectangles produced
so far and the `prev` reach counter. -/
structure DamScan where
  rects : List VRect
  prevCnt : Nat
deriving DecidableEq, Repr

/-- Union of two rectangles, as performed by `merge_damage` on the latest
rectangle. -/
def rectUnion (a r : VRect) : VRect :=
  ⟨min a.x1 r.x1, min a.y1 r.y1, max a.x2 r.x2, max a.y2 r.y2⟩

/-- Merge a rectangle into the most recently added one, from `merge_damage`
(which rewrites `damage_rects[damage_rect_len - 1]`). -/
def merge_damage : List VRect → VRect → List VRect
  | [], _ => []
  | [a], r => [rectUnion a r]
  | a :: b :: rest, r => a :: merge_damage (b :: rest) r

/-- Cell size used by the damage rectangles (font size swapped for the
rotated orientations), from the head of `bbulk_compute_damage`. -/
def damageFW (tc : TxtConf) : Nat :=
  if tc.orientation = .OR_NORMAL ∨ tc.orientation = .OR_UPSIDE_DOWN then tc.fontW
  else tc.fontH

/-- Cell height counterpart of `damageFW`. -/
def damageFH (tc : TxtConf) : Nat :=
  if tc.orientation = .OR_NORMAL ∨ tc.orientation = .OR_UPSIDE_DOWN then tc.fontH
  else tc.fontW

/-- Device-pixel bounds of one cell as `bbulk_compute_damage` builds them
from `set_coordinate` and the swapped font size. -/
def cellRect (tc : TxtConf) (posx posy : Nat) : VRect :=
  let xy := set_coordinate tc posx posy
  ⟨xy.1, xy.2, xy.1 + damageFW tc, xy.2 + damageFH tc⟩

/-- One column step of the damage scan: a damaged cell opens or extends a
rectangle and re-arms the reach counter, an undamaged one lets the counter
expire. -/
def damScanCell (tc : TxtConf) (dam : Nat → Bool) (posy : Nat) (st : DamScan)
    (posx : Nat) : DamScan :=
  if dam (posx + posy * tc.cols) = true then
    { rects :=
        if st.prevCnt ≠ 0 then merge_damage st.rects (cellRect tc posx posy)
        else st.rects ++ [cellRect tc posx posy]
      prevCnt := DAMAGE_MERGE_LEN }
  else
    { st with prevCnt := st.prevCnt - 1 }

/-- Scan of `n` consecutive columns starting at `posx` within row `posy`. -/
def damScanCols (tc : TxtConf) (dam : Nat → Bool) (posy : Nat) :
    DamScan → Nat → Nat → DamScan
  | st, _, 0 => st
  | st, posx, n + 1 =>
      damScanCols tc dam posy (damScanCell tc dam posy st posx) (posx + 1) n

/-- Scan of `m` consecutive whole rows starting at `posy`; the reach counter
is reset to zero at the start of every row. -/
def damScanRows (tc : TxtConf) (dam : Nat → Bool) : DamScan → Nat → Nat → DamScan
  | st, _, 0 => st
  | st, posy, m + 1 =>
      damScanRows tc dam
        (damScanCols tc dam posy { st with prevCnt := 0 } 0 tc.cols) (posy + 1) m

/-- The damage rectangles computed by `bbulk_compute_damage` from the
per-cell damage flags. -/
def bbulk_compute_damage (tc : TxtConf) (dam : Nat → Bool) : List VRect :=
  (damScanRows tc dam ⟨[], 0⟩ 0 tc.rows).rects

/-- Exact capacity of the `damage_rects` array allocated by `bbulk_set`:
`SHL_DIV_ROUND_UP(txt->cols, DAMAGE_MERGE_LEN + 1) * txt->rows`. -/
def bbulk_max_damage_rects (cols rows : Nat) : Nat :=
  shl_div_round_up cols (DAMAGE_MERGE_LEN + 1) * rows

/-- One `bbulk_render` call: submits the accumulated blit requests in one
batch (their number is returned) and, when the display supports damage
reporting, computes and stores the damage rectangles. -/
def bbulk_render (tc : TxtConf) (bb : BBState) (supports_damage : Bool) :
    BBState × Nat :=
  if supports_damage = true then
    ({ bb with damage_rect_list := bbulk_compute_damage tc bb.damages }, bb.reqs.length)
  else
    (bb, bb.reqs.length)

/-- Grid cell under the pointer as `mark_damaged` computes it: half a font
cell subtracted (rounding up) before the division, then the position clamped
into the grid. -/
def pointer_cell_pos (tc : TxtConf) (x y : Nat) : Nat × Nat :=
  let fw := shl_div_round_up tc.fontW 2
  let fh := shl_div_round_up tc.fontH 2
  let posx0 := if x > fw then (x - fw) / tc.fontW else 0
  let posy0 := if y > fh then (y - fh) / tc.fontH else 0
  (if posx0 ≥ tc.cols then tc.cols - 1 else posx0,
   if posy0 ≥ tc.rows then tc.rows - 1 else posy0)

/-- Offsets passed to `damage_cell` by `mark_damaged`, in call order: the
cell nearest the pointer centre (grid position clamped into the grid) and
its in-grid right, lower and lower-right neighbours. -/
def mark_damaged_offsets (tc : TxtConf) (x y : Nat) : List Nat :=
  let posx := (pointer_cell_pos tc x y).1
  let posy := (pointer_cell_pos tc x y).2
  let off := posx + posy * tc.cols
  [off] ++ (if posx + 1 < tc.cols then [off + 1] else []) ++
    (if posy + 1 < tc.rows then [off + tc.cols] else []) ++
    (if posx + 1 < tc.cols ∧ posy + 1 < tc.rows then [off + 1 + tc.cols] else [])

/-- The state effect of `mark_damaged`: `damage_cell` folded over the marked
offsets. -/
def mark_damaged (tc : TxtConf) (bb : BBState) (x y : Nat) : BBState :=
  (mark_damaged_offsets tc x y).foldl damage_cell bb

/-- Pointer clamping performed by `bblit_draw_pointer` before calling
`mark_damaged`: the sprite centre is pulled back inside the text area. -/
def draw_pointer_clamped (tc : TxtConf) (pointer_x pointer_y : Nat) : Nat × Nat :=
  (min pointer_x (tc.cols * tc.fontW - tc.fontW / 2),
   min pointer_y (tc.rows * tc.fontH - tc.fontH / 2))

/-- A greyscale glyph bitmap, from `struct uterm_video_buffer`: row-major,
one byte per pixel, row `r` starting at byte `r * stride`; `data` is the
byte array as a total function (bytes the rotator never writes — the stride
padding — read as 0, matching fresh allocation content loosely; the
round-trip claim compares only pixels inside the width). -/
structure KBitmap where
  width : Nat
  height : Nat
  stride : Nat
  data : Nat → Nat

/-- Pixel accessor: byte at row `r`, column `c`. -/
def kpixel (b : KBitmap) (r c : Nat) : Nat := b.data (r * b.stride + c)

/-- The glyph rotator, from `kmscon_rotate_glyph`: swapped width/height for
the 90-degree rotations, stride rounded up to `align`, and the pixel
permutation of each `switch` arm expressed as the (bijective) index map the
C loops install: NORMAL copies rows, RIGHT writes source pixel `(i, j)` to
row `j`, column `height_src - 1 - i`, UPSIDE_DOWN reverses both axes, LEFT
writes source pixel `(i, j)` to row `width_src - 1 - j`, column `i`. -/
def kmscon_rotate_glyph (buf : KBitmap) (orientation : KOrientation) (align : Nat) :
    KBitmap :=
  let w := if orientation = .OR_NORMAL ∨ orientation = .OR_UPSIDE_DOWN then buf.width
    else buf.height
  let h := if orientation = .OR_NORMAL ∨ orientation = .OR_UPSIDE_DOWN then buf.height
    else buf.width
  let stride := align * ((w + (align - 1)) / align)
  { width := w
    height := h
    stride := stride
    data := fun k =>
      let r := k / stride
      let c := k % stride
      if r < h ∧ c < w then
        match orientation with
        | .OR_NORMAL => buf.data (r * buf.stride + c)
        | .OR_RIGHT => buf.data ((buf.height - 1 - c) * buf.stride + r)
        | .OR_UPSIDE_DOWN =>
            buf.data ((buf.height - 1 - r) * buf.stride + (buf.width - 1 - c))
        | .OR_LEFT => buf.data (c * buf.stride + (buf.width - 1 - r))
      else 0 }

/-- A heap for the allocation model of `bbulk_set`/`bbulk_unset`: the next
fresh allocation id and the set of live allocations. -/
structure KHeap where
  next : Nat
  live : Finset Nat
deriving DecidableEq

/-- Allocate a fresh block. -/
def halloc (h : KHeap) : Nat × KHeap :=
  (h.next, ⟨h.next + 1, insert h.next h.live⟩)

/-- Release a block: `free(NULL)` is a no-op, otherwise the id leaves the
live set (releasing an id that is not live leaves the heap unchanged — the
heap model cannot observe a double free, the call trace below does). -/
def hfree (h : KHeap) : Option Nat → KHeap
  | none => h
  | some a => ⟨h.next, h.live.erase a⟩

/-- The pointer fields of `struct bbulk` relevant to allocation: the two
glyph hashtables, the blit-request array, the per-cell records, the damage
flags and the damage rectangles.  `none` models a NULL pointer. -/
structure BBPtrs where
  glyphs : Option Nat
  bold_glyphs : Option Nat
  reqs : Option Nat
  prevCells : Option Nat
  damages : Option Nat
  damage_rects : Option Nat
deriving DecidableEq, Repr

/-- The non-NULL pointers `bbulk_unset` passes to a deallocating call, in
call order: `kmscon_rotate_free_tables` on both glyph tables, then `free`
on `damage_rects`, `reqs`, `damages`, `prev`.  Modelled from the spec for
the parts outside src: `shl_hashtable_free` skips a NULL table, `free(NULL)`
is a no-op, so NULL pointers free nothing. -/
def bbulk_unset_frees (bb : BBPtrs) : List Nat :=
  bb.glyphs.toList ++ bb.bold_glyphs.toList ++ bb.damage_rects.toList ++
    bb.reqs.toList ++ bb.damages.toList ++ bb.prevCells.toList

/-- One `bbulk_unset` call on the allocation model: performs the frees of
`bbulk_unset_frees` and NULLs `damage_rects`, `reqs`, `damages` and `prev` —
but leaves the two glyph-table pointers untouched, exactly as the C code
does.  Returns the new heap, the new pointer fields and the list of
(non-NULL) pointers that were freed. -/
def bbulk_unset (h : KHeap) (bb : BBPtrs) : KHeap × BBPtrs × List Nat :=
  let fr := bbulk_unset_frees bb
  (fr.foldl (fun hh a => hfree hh (some a)) h,
   { bb with damage_rects := none, reqs := none, damages := none, prevCells := none },
   fr)

/-- One `bbulk_set` call on the allocation model: first the internal
`bbulk_unset` (so that calling `set` twice without `unset` does not leak),
then `memset(bb, 0, ...)`, the `EINVAL` check on the display size, and the
allocations in source order: `reqs`, `prev`, `damages`, `damage_rects`, and
the two glyph tables of `kmscon_rotate_create_tables`.  Allocation is
modelled as always succeeding (the claims under test concern the teardown
discipline, not OOM unwinding).  Returns the heap, the pointer fields, the
freed pointers of the teardown, and the error code if any. -/
def bbulk_set (h : KHeap) (bb : BBPtrs) (sw sh : Nat) :
    KHeap × BBPtrs × List Nat × Option Int :=
  let u := bbulk_unset h bb
  let bbZ : BBPtrs := ⟨none, none, none, none, none, none⟩
  if sw = 0 ∨ sh = 0 then
    (u.1, bbZ, u.2.2, some (-22))
  else
    let a1 := halloc u.1
    let a2 := halloc a1.2
    let a3 := halloc a2.2
    let a4 := halloc a3.2
    let a5 := halloc a4.2
    let a6 := halloc a5.2
    (a6.2,
     { glyphs := some a5.1, bold_glyphs := some a6.1, reqs := some a1.1,
       prevCells := some a2.1, damages := some a3.1, damage_rects := some a4.1 },
     u.2.2, none)

/-- A rendered glyph as `find_glyph` handles it: an opaque reference (the
entry pointer stored in the hashtable). -/
abbrev GlyphRef := Nat

/-- A glyph hashtable, modelled from the spec as an association map keyed by
the glyph identity (`shl_hashtable` with direct hash/equal is a map from the
id to the entry; an insert that fails leaves the table unchanged). -/
abbrev GlyphTable := List (Nat × GlyphRef)

/-- Style flags of a `struct kmscon_font` that `find_glyph` mutates before
rendering. -/
structure KFontFlags where
  underline : Bool
  italic : Bool
deriving DecidableEq, Repr

/-- The state `find_glyph` reads and writes: the two glyph tables of the
renderer and the style flags of the two shared font objects. -/
structure FGState where
  glyphs : GlyphTable
  bold_glyphs : GlyphTable
  font : KFontFlags
  bold_font : KFontFlags
deriving DecidableEq, Repr

/-- Failure oracle for one `find_glyph` cache miss: the outcome of the entry
`malloc`, of the three rendering-service calls, of `kmscon_rotate_glyph`'s
buffer allocation and of `shl_hashtable_insert`. -/
structure FGEnv where
  entry_alloc : Option GlyphRef
  render_empty : Except Int Unit
  render_ch : Except Int Unit
  render_inval : Except Int Unit
  rotate : Except Int Unit
  insert : Except Int Unit
deriving Repr

/-- Miss path of `find_glyph`, building a new cache entry: entry
allocation, primary render (empty-cell render when `len == 0`) with
invalid-glyph fallback, and rotation, then the hashtable insert's status —
each step failing with the underlying error code. -/
def find_glyph_build (env : FGEnv) (len : Nat) : Except Int GlyphRef :=
  match env.entry_alloc with
  | none => .error (-12)
  | some ent =>
    let rendered : Except Int Unit :=
      match (if len = 0 then env.render_empty else env.render_ch) with
      | .ok u => .ok u
      | .error _ => env.render_inval
    match rendered with
    | .error e => .error e
    | .ok _ =>
      match env.rotate with
      | .error e => .error e
      | .ok _ =>
        match env.insert with
        | .error e => .error e
        | .ok _ => .ok ent

/-- Glyph-cache lookup, from `find_glyph`: selects the bold or normal table
and font, mutates the font's underline/italic flags, returns a cache hit
unchanged, and otherwise builds a new entry through `find_glyph_build`; only
a fully successful build (insert included) stores the entry in the table,
every failure is propagated with the tables untouched and the partial entry
freed. -/
def find_glyph (st : FGState) (env : FGEnv) (id : Nat) (len : Nat) (attr : TsmAttr) :
    FGState × Except Int GlyphRef :=
  let fontFlags : KFontFlags := ⟨attr.underline, attr.italic⟩
  let st1 :=
    if attr.bold then { st with bold_font := fontFlags }
    else { st with font := fontFlags }
  let gtable := if attr.bold then st1.bold_glyphs else st1.glyphs
  match gtable.lookup id with
  | some ent => (st1, .ok ent)
  | none =>
    match find_glyph_build env len with
    | .error e => (st1, .error e)
    | .ok ent =>
      (if attr.bold then { st1 with bold_glyphs := (id, ent) :: st1.bold_glyphs }
       else { st1 with glyphs := (id, ent) :: st1.glyphs },
       .ok ent)

theorem upd_same {α : Type} (f : Nat → α) (i : Nat) (a : α) : upd f i a i = a := by
  simp [upd]

theorem upd_ne {α : Type} (f : Nat → α) (i j : Nat) (a : α) (h : j ≠ i) :
    upd f i a j = f j := by
  simp [upd, h]

theorem upd_self {α : Type} (f : Nat → α) (i : Nat) : upd f i (f i) = f := by
  funext j
  by_cases h : j = i <;> simp [upd, h]

theorem upd_upd {α : Type} (f : Nat → α) (i : Nat) (a b : α) :
    upd (upd f i a) i b = upd f i b := by
  funext j
  by_cases h : j = i <;> simp [upd, h]

/-- Pointwise effect of one `bbulk_draw` on a single-width, non-overflow
cell: the new cell record, the new damage flag, and whether a blit request
was emitted. -/
def cellStep (c : BBCell) (d : Bool) (id : Nat) (attr : TsmAttr) :
    BBCell × Bool × Bool :=
  if c.id = id ∧ c.attr = attr then
    if d = true then (⟨id, attr, false⟩, false, true) else (c, d, false)
  else
    (⟨id, attr, false⟩, true, true)

theorem bbulk_draw_step (tc : TxtConf) (bb : BBState) (id posx posy : Nat)
    (attr : TsmAttr) (hgw : tc.gw id = 1)
    (hov : (bb.prev (posx + posy * tc.cols)).overflow = false) :
    (bbulk_draw tc bb id 1 1 posx posy attr).prev =
      upd bb.prev (posx + posy * tc.cols)
        (cellStep (bb.prev (posx + posy * tc.cols))
          (bb.damages (posx + posy * tc.cols)) id attr).1 ∧
    (bbulk_draw tc bb id 1 1 posx posy attr).damages =
      upd bb.damages (posx + posy * tc.cols)
        (cellStep (bb.prev (posx + posy * tc.cols))
          (bb.damages (posx + posy * tc.cols)) id attr).2.1 ∧
    (bbulk_draw tc bb id 1 1 posx posy attr).reqs =
      bb.reqs ++
        (if (cellStep (bb.prev (posx + posy * tc.cols))
              (bb.damages (posx + posy * tc.cols)) id attr).2.2 = true then
          [mkReq (set_coordinate tc posx posy).1 (set_coordinate tc posx posy).2 id attr]
        else []) ∧
    (bbulk_draw tc bb id 1 1 posx posy attr).attr = bb.attr ∧
    (bbulk_draw tc bb id 1 1 posx posy attr).redraw_margin = bb.redraw_margin ∧
    (bbulk_draw tc bb id 1 1 posx posy attr).damage_rect_list = bb.damage_rect_list := by
  by_cases hid : (bb.prev (posx + posy * tc.cols)).id = id ∧
      (bb.prev (posx + posy * tc.cols)).attr = attr
  · by_cases hd : bb.damages (posx + posy * tc.cols) = true
    · simp [bbulk_draw, drawCheck, drawEmit, cellStep, hid.1, hid.2, hd, hov, hgw,
        upd_same, upd_upd]
    · simp only [Bool.not_eq_true] at hd
      have hd0 : ¬bb.damages (posx + posy * tc.cols) = true := by simp [hd]
      have ec : cellStep (bb.prev (posx + posy * tc.cols)) false id attr =
          (bb.prev (posx + posy * tc.cols), false, false) := by
        simp [cellStep, hid.1, hid.2]
      have hu : upd bb.damages (posx + posy * tc.cols) false = bb.damages := by
        rw [← hd]; exact upd_self _ _
      simp [bbulk_draw, drawCheck, hid.1, hid.2, hd0, hov, ec, upd_self, hu]
  · simp [bbulk_draw, drawCheck, drawEmit, cellStep, hid, hov, hgw, upd_same, upd_upd]

theorem drawSeg_uniform (tc : TxtConf) (id : Nat) (attr : TsmAttr) (c : BBCell) (d : Bool)
    (hov : c.overflow = false) (hgw : tc.gw id = 1) (posy : Nat) (n : Nat) :
    ∀ (posx : Nat) (bb : BBState),
      (∀ k, k < n → bb.prev (posx + k + posy * tc.cols) = c ∧
        bb.damages (posx + k + posy * tc.cols) = d) →
      (∀ k, k < n →
        (drawSeg tc id 1 1 attr posy posx n bb).prev (posx + k + posy * tc.cols) =
          (cellStep c d id attr).1 ∧
        (drawSeg tc id 1 1 attr posy posx n bb).damages (posx + k + posy * tc.cols) =
          (cellStep c d id attr).2.1) ∧
      (∀ j, (∀ k, k < n → j ≠ posx + k + posy * tc.cols) →
        (drawSeg tc id 1 1 attr posy posx n bb).prev j = bb.prev j ∧
        (drawSeg tc id 1 1 attr posy posx n bb).damages j = bb.damages j) ∧
      (drawSeg tc id 1 1 attr posy posx n bb).reqs.length = bb.reqs.length +
        n * (if (cellStep c d id attr).2.2 = true then 1 else 0) ∧
      (drawSeg tc id 1 1 attr posy posx n bb).attr = bb.attr ∧
      (drawSeg tc id 1 1 attr posy posx n bb).redraw_margin = bb.redraw_margin ∧
      (drawSeg tc id 1 1 attr posy posx n bb).damage_rect_list = bb.damage_rect_list := by
  induction n with
  | zero =>
    intro posx bb _
    simp [drawSeg]
  | succ n ih =>
    intro posx bb H
    have H0 := H 0 (Nat.succ_pos n)
    have hc : bb.prev (posx + posy * tc.cols) = c := by
      have := H0.1; simpa using this
    have hd' : bb.damages (posx + posy * tc.cols) = d := by
      have := H0.2; simpa using this
    have hov' : (bb.prev (posx + posy * tc.cols)).overflow = false := by rw [hc]; exact hov
    obtain ⟨hp, hdm, hr, ha, hm, hl⟩ := bbulk_draw_step tc bb id posx posy attr hgw hov'
    rw [hc, hd'] at hp hdm hr
    have hrec : drawSeg tc id 1 1 attr posy posx (n + 1) bb =
        drawSeg tc id 1 1 attr posy (posx + 1) n (bbulk_draw tc bb id 1 1 posx posy attr) := by
      simp [drawSeg]
    have H1 : ∀ k, k < n →
        (bbulk_draw tc bb id 1 1 posx posy attr).prev (posx + 1 + k + posy * tc.cols) = c ∧
        (bbulk_draw tc bb id 1 1 posx posy attr).damages (posx + 1 + k + posy * tc.cols) = d := by
      intro k hk
      have hne : posx + 1 + k + posy * tc.cols ≠ posx + posy * tc.cols := by omega
      have hidx : posx + 1 + k + posy * tc.cols = posx + (k + 1) + posy * tc.cols := by omega
      constructor
      · rw [hp, upd_ne _ _ _ _ hne, hidx]
        exact (H (k + 1) (by omega)).1
      · rw [hdm, upd_ne _ _ _ _ hne, hidx]
        exact (H (k + 1) (by omega)).2
    obtain ⟨ih1, ih2, ih3, ih4, ih5, ih6⟩ := ih (posx + 1) (bbulk_draw tc bb id 1 1 posx posy attr) H1
    rw [hrec]
    refine ⟨?_, ?_, ?_, ?_, ?_, ?_⟩
    · intro k hk
      match k with
      | 0 =>
        have hfar : ∀ k', k' < n → posx + 0 + posy * tc.cols ≠ posx + 1 + k' + posy * tc.cols := by
          intro k' _; omega
        have hu := ih2 (posx + 0 + posy * tc.cols) hfar
        have h00 : posx + 0 + posy * tc.cols = posx + posy * tc.cols := by omega
        rw [hu.1, hu.2, h00, hp, hdm, upd_same, upd_same]
        exact ⟨rfl, rfl⟩
      | k' + 1 =>
        have hidx : posx + (k' + 1) + posy * tc.cols = posx + 1 + k' + posy * tc.cols := by omega
        rw [hidx]
        exact ih1 k' (by omega)
    · intro j hj
      have hj1 : ∀ k, k < n → j ≠ posx + 1 + k + posy * tc.cols := by
        intro k hk
        have hidx : posx + 1 + k + posy * tc.cols = posx + (k + 1) + posy * tc.cols := by omega
        rw [hidx]
        exact hj (k + 1) (by omega)
      have hj0 : j ≠ posx + posy * tc.cols := by
        have := hj 0 (Nat.succ_pos n)
        simpa using this
      obtain ⟨u1, u2⟩ := ih2 j hj1
      rw [u1, u2, hp, hdm, upd_ne _ _ _ _ hj0, upd_ne _ _ _ _ hj0]
      exact ⟨rfl, rfl⟩
    · rw [ih3, hr]
      simp [List.length_append]
      ring_nf
      by_cases he : (cellStep c d id attr).2.2 = true <;> simp [he] <;> ring
    · rw [ih4, ha]
    · rw [ih5, hm]
    · rw [ih6, hl]

theorem drawRows_uniform (tc : TxtConf) (id : Nat) (attr : TsmAttr) (c : BBCell) (d : Bool)
    (hov : c.overflow = false) (hgw : tc.gw id = 1) (m : Nat) :
    ∀ (posy : Nat) (bb : BBState),
      (∀ k, k < m * tc.cols → bb.prev (posy * tc.cols + k) = c ∧
        bb.damages (posy * tc.cols + k) = d) →
      (∀ k, k < m * tc.cols →
        (drawRows tc id 1 1 attr posy m bb).prev (posy * tc.cols + k) =
          (cellStep c d id attr).1 ∧
        (drawRows tc id 1 1 attr posy m bb).damages (posy * tc.cols + k) =
          (cellStep c d id attr).2.1) ∧
      (∀ j, (∀ k, k < m * tc.cols → j ≠ posy * tc.cols + k) →
        (drawRows tc id 1 1 attr posy m bb).prev j = bb.prev j ∧
        (drawRows tc id 1 1 attr posy m bb).damages j = bb.damages j) ∧
      (drawRows tc id 1 1 attr posy m bb).reqs.length = bb.reqs.length +
        m * tc.cols * (if (cellStep c d id attr).2.2 = true then 1 else 0) ∧
      (drawRows tc id 1 1 attr posy m bb).attr = bb.attr ∧
      (drawRows tc id 1 1 attr posy m bb).redraw_margin = bb.redraw_margin ∧
      (drawRows tc id 1 1 attr posy m bb).damage_rect_list = bb.damage_rect_list := by
  induction m with
  | zero =>
    intro posy bb _
    simp [drawRows]
  | succ m ih =>
    intro posy bb H
    have hsm : (m + 1) * tc.cols = m * tc.cols + tc.cols := by ring
    rw [hsm] at H
    have Hrow : ∀ k, k < tc.cols → bb.prev (0 + k + posy * tc.cols) = c ∧
        bb.damages (0 + k + posy * tc.cols) = d := by
      intro k hk
      have hidx : 0 + k + posy * tc.cols = posy * tc.cols + k := by omega
      rw [hidx]
      exact H k (by omega)
    obtain ⟨s1, s2, s3, s4, s5, s6⟩ :=
      drawSeg_uniform tc id attr c d hov hgw posy tc.cols 0 bb Hrow
    set bb1 := drawSeg tc id 1 1 attr posy 0 tc.cols bb with hbb1
    have hrec : drawRows tc id 1 1 attr posy (m + 1) bb =
        drawRows tc id 1 1 attr (posy + 1) m bb1 := by
      simp [drawRows, hbb1]
    have hny : (posy + 1) * tc.cols = posy * tc.cols + tc.cols := by ring
    have H1 : ∀ k, k < m * tc.cols → bb1.prev ((posy + 1) * tc.cols + k) = c ∧
        bb1.damages ((posy + 1) * tc.cols + k) = d := by
      intro k hk
      have hfar : ∀ k', k' < tc.cols →
          (posy + 1) * tc.cols + k ≠ 0 + k' + posy * tc.cols := by
        intro k' hk'; rw [hny]; omega
      obtain ⟨u1, u2⟩ := s2 ((posy + 1) * tc.cols + k) hfar
      have hidx : (posy + 1) * tc.cols + k = posy * tc.cols + (tc.cols + k) := by
        rw [hny]; omega
      rw [u1, u2, hidx]
      exact H (tc.cols + k) (by omega)
    obtain ⟨ih1, ih2, ih3, ih4, ih5, ih6⟩ := ih (posy + 1) bb1 H1
    rw [hrec]
    refine ⟨?_, ?_, ?_, ?_, ?_, ?_⟩
    · intro k hk
      by_cases hkc : k < tc.cols
      · have hfar : ∀ k', k' < m * tc.cols →
            posy * tc.cols + k ≠ (posy + 1) * tc.cols + k' := by
          intro k' _; rw [hny]; omega
        obtain ⟨u1, u2⟩ := ih2 (posy * tc.cols + k) hfar
        have hidx : posy * tc.cols + k = 0 + k + posy * tc.cols := by omega
        rw [u1, u2, hidx]
        exact s1 k hkc
      · have hidx : posy * tc.cols + k = (posy + 1) * tc.cols + (k - tc.cols) := by
          rw [hny]; omega
        rw [hidx]
        exact ih1 (k - tc.cols) (by rw [hsm] at hk; omega)
    · intro j hj
      have hj1 : ∀ k, k < m * tc.cols → j ≠ (posy + 1) * tc.cols + k := by
        intro k hk
        have hidx : (posy + 1) * tc.cols + k = posy * tc.cols + (tc.cols + k) := by
          rw [hny]; omega
        rw [hidx]
        exact hj (tc.cols + k) (by omega)
      have hj0 : ∀ k, k < tc.cols → j ≠ 0 + k + posy * tc.cols := by
        intro k hk
        have hidx : 0 + k + posy * tc.cols = posy * tc.cols + k := by omega
        rw [hidx]
        exact hj k (by omega)
      obtain ⟨u1, u2⟩ := ih2 j hj1
      obtain ⟨v1, v2⟩ := s2 j hj0
      rw [u1, u2, v1, v2]
      exact ⟨rfl, rfl⟩
    · rw [ih3, s3]
      ring
    · rw [ih4, s4]
    · rw [ih5, s5]
    · rw [ih6, s6]

theorem foldl_damage_cell_range (bb : BBState) (n : Nat) :
    (∀ i, ((List.range n).foldl damage_cell bb).prev i =
      if i < n then { bb.prev i with id := ID_DAMAGED } else bb.prev i) ∧
    (∀ i, ((List.range n).foldl damage_cell bb).damages i =
      if i < n then true else bb.damages i) ∧
    ((List.range n).foldl damage_cell bb).reqs = bb.reqs ∧
    ((List.range n).foldl damage_cell bb).attr = bb.attr ∧
    ((List.range n).foldl damage_cell bb).redraw_margin = bb.redraw_margin ∧
    ((List.range n).foldl damage_cell bb).damage_rect_list = bb.damage_rect_list := by
  induction n with
  | zero => simp
  | succ n ih =>
    obtain ⟨p1, p2, p3, p4, p5, p6⟩ := ih
    rw [List.range_succ, List.foldl_append]
    simp only [List.foldl_cons, List.foldl_nil]
    refine ⟨?_, ?_, by simp [damage_cell, p3], by simp [damage_cell, p4],
      by simp [damage_cell, p5], by simp [damage_cell, p6]⟩
    · intro i
      by_cases hi : i = n
      · subst hi
        simp [damage_cell, upd_same, p1]
      · have h2 : (if i < n + 1 then { bb.prev i with id := ID_DAMAGED } else bb.prev i) =
            (if i < n then { bb.prev i with id := ID_DAMAGED } else bb.prev i) := by
          by_cases hlt : i < n
          · have h3 : i < n + 1 := by omega
            simp [hlt, h3]
          · have h3 : ¬ i < n + 1 := by omega
            simp [hlt, h3]
        simp only [damage_cell]
        rw [h2, upd_ne _ _ _ _ hi]
        exact p1 i
    · intro i
      by_cases hi : i = n
      · subst hi
        simp [damage_cell, upd_same]
      · have h2 : (if i < n + 1 then true else bb.damages i) =
            (if i < n then true else bb.damages i) := by
          by_cases hlt : i < n
          · have h3 : i < n + 1 := by omega
            simp [hlt, h3]
          · have h3 : ¬ i < n + 1 := by omega
            simp [hlt, h3]
        simp only [damage_cell]
        rw [h2, upd_ne _ _ _ _ hi]
        exact p2 i

theorem bbulk_prepare_quiet (tc : TxtConf) (bb : BBState) (attr : TsmAttr)
    (ha : bb.attr = attr) (hm : bb.redraw_margin = 0) :
    bbulk_prepare tc bb attr false false =
      ({ bb with reqs := [], damage_rect_list := [] }, false) := by
  cases bb
  simp only at ha hm
  subst ha
  subst hm
  simp [bbulk_prepare]

/-- Configuration of the spec scenario: 640×384 display, 8×16 font cell,
NORMAL orientation, `cols`/`rows` exactly as `bbulk_set` computes them, the
font service reporting single-width glyphs. -/
def scenTC : TxtConf :=
  { cols := (bbulk_set_geometry 640 384 8 16 .OR_NORMAL).1
    rows := (bbulk_set_geometry 640 384 8 16 .OR_NORMAL).2
    fontW := 8
    fontH := 16
    sw := 640
    sh := 384
    orientation := .OR_NORMAL
    gw := fun _ => 1 }

/-- One full frame of the scenario: `prepare` with unchanged default
attributes and quiet display oracles, every cell drawn with the same
single-width glyph 65, then `render` on a damage-capable display.  Returns
the new state and the number of blit requests submitted. -/
def scenFrame (bb : BBState) : BBState × Nat :=
  let p := (bbulk_prepare scenTC bb attrZero false false).1
  let g := drawFullGrid scenTC 65 1 1 attrZero p
  bbulk_render scenTC g true

/-- Scenario frame 1, starting from the state `bbulk_set` leaves behind. -/
def scenF1 : BBState × Nat := scenFrame (bbulk_set_state scenTC)

/-- Scenario frame 2. -/
def scenF2 : BBState × Nat := scenFrame scenF1.1

/-- Scenario frame 3. -/
def scenF3 : BBState × Nat := scenFrame scenF2.1

theorem scenTC_cols : scenTC.cols = 80 := by decide

theorem scenTC_rows : scenTC.rows = 24 := by decide

theorem bbulk_render_prev (tc : TxtConf) (bb : BBState) (sd : Bool) :
    (bbulk_render tc bb sd).1.prev = bb.prev := by
  unfold bbulk_render
  split <;> rfl

theorem bbulk_render_damages (tc : TxtConf) (bb : BBState) (sd : Bool) :
    (bbulk_render tc bb sd).1.damages = bb.damages := by
  unfold bbulk_render
  split <;> rfl

theorem bbulk_render_attr (tc : TxtConf) (bb : BBState) (sd : Bool) :
    (bbulk_render tc bb sd).1.attr = bb.attr := by
  unfold bbulk_render
  split <;> rfl

theorem bbulk_render_margin (tc : TxtConf) (bb : BBState) (sd : Bool) :
    (bbulk_render tc bb sd).1.redraw_margin = bb.redraw_margin := by
  unfold bbulk_render
  split <;> rfl

theorem bbulk_render_count (tc : TxtConf) (bb : BBState) (sd : Bool) :
    (bbulk_render tc bb sd).2 = bb.reqs.length := by
  unfold bbulk_render
  split <;> rfl

theorem scenFrame_uniform (bb : BBState) (c : BBCell) (d : Bool)
    (hov : c.overflow = false)
    (hu : ∀ k, k < 1920 → bb.prev k = c ∧ bb.damages k = d)
    (ha : bb.attr = attrZero) (hm : bb.redraw_margin = 0) :
    (∀ k, k < 1920 → (scenFrame bb).1.prev k = (cellStep c d 65 attrZero).1 ∧
      (scenFrame bb).1.damages k = (cellStep c d 65 attrZero).2.1) ∧
    (scenFrame bb).1.attr = attrZero ∧
    (scenFrame bb).1.redraw_margin = 0 ∧
    (scenFrame bb).2 =
      1920 * (if (cellStep c d 65 attrZero).2.2 = true then 1 else 0) := by
  have hq := bbulk_prepare_quiet scenTC bb attrZero ha hm
  set p := (bbulk_prepare scenTC bb attrZero false false).1 with hpdef
  have hgw : scenTC.gw 65 = 1 := rfl
  have hp : p = { bb with reqs := [], damage_rect_list := [] } := by
    rw [hpdef, hq]
  have Hp : ∀ k, k < 24 * scenTC.cols → p.prev (0 * scenTC.cols + k) = c ∧
      p.damages (0 * scenTC.cols + k) = d := by
    intro k hk
    rw [scenTC_cols] at hk
    have hidx : 0 * scenTC.cols + k = k := by omega
    rw [hidx, hp]
    exact hu k (by omega)
  obtain ⟨r1, r2, r3, r4, r5, r6⟩ :=
    drawRows_uniform scenTC 65 attrZero c d hov hgw 24 0 p Hp
  have hg : drawFullGrid scenTC 65 1 1 attrZero p =
      drawRows scenTC 65 1 1 attrZero 0 24 p := by
    rw [drawFullGrid, scenTC_rows]
  have hsc : scenFrame bb =
      bbulk_render scenTC (drawFullGrid scenTC 65 1 1 attrZero p) true := by
    rw [hpdef]
    rfl
  refine ⟨?_, ?_, ?_, ?_⟩
  · intro k hk
    have hk' : k < 24 * scenTC.cols := by rw [scenTC_cols]; omega
    have hr := r1 k hk'
    have hidx : 0 * scenTC.cols + k = k := by omega
    rw [hidx] at hr
    rw [hsc, bbulk_render_prev, bbulk_render_damages, hg]
    exact hr
  · rw [hsc, bbulk_render_attr, hg, r4, hp]
    exact ha
  · rw [hsc, bbulk_render_margin, hg, r5, hp]
    exact hm
  · have hpr : p.reqs.length = 0 := by rw [hp]; rfl
    rw [hsc, bbulk_render_count, hg, r3, hpr, scenTC_cols]
    norm_num

theorem scenInit_uniform :
    (∀ k, k < 1920 → (bbulk_set_state scenTC).prev k = ⟨ID_DAMAGED, attrZero, false⟩ ∧
      (bbulk_set_state scenTC).damages k = true) ∧
    (bbulk_set_state scenTC).attr = attrZero ∧
    (bbulk_set_state scenTC).redraw_margin = 0 := by
  have hcells : scenTC.cols * scenTC.rows = 1920 := by rw [scenTC_cols, scenTC_rows]
  have hbs : bbulk_set_state scenTC = (List.range (scenTC.cols * scenTC.rows)).foldl
      damage_cell
      { prev := fun _ => ⟨0, attrZero, false⟩
        damages := fun _ => false
        reqs := []
        attr := attrZero
        redraw_margin := 0
        damage_rect_list := [] } := rfl
  obtain ⟨p1, p2, p3, p4, p5, p6⟩ := foldl_damage_cell_range
    { prev := fun _ => ⟨0, attrZero, false⟩
      damages := fun _ => false
      reqs := []
      attr := attrZero
      redraw_margin := 0
      damage_rect_list := ([] : List VRect) } (scenTC.cols * scenTC.rows)
  refine ⟨?_, ?_, ?_⟩
  · intro k hk
    have hk' : k < scenTC.cols * scenTC.rows := by omega
    constructor
    · rw [hbs, p1 k]
      simp [hk']
    · rw [hbs, p2 k]
      simp [hk']
  · rw [hbs, p4]
  · rw [hbs, p5]

theorem scenF1_facts :
    (∀ k, k < 1920 → scenF1.1.prev k = ⟨65, attrZero, false⟩ ∧
      scenF1.1.damages k = true) ∧
    scenF1.1.attr = attrZero ∧ scenF1.1.redraw_margin = 0 ∧ scenF1.2 = 1920 := by
  obtain ⟨i1, i2, i3⟩ := scenInit_uniform
  have hstep : cellStep ⟨ID_DAMAGED, attrZero, false⟩ true 65 attrZero =
      (⟨65, attrZero, false⟩, true, true) := by
    have hne : ID_DAMAGED ≠ 65 := by decide
    simp [cellStep, hne]
  obtain ⟨f1, f2, f3, f4⟩ :=
    scenFrame_uniform (bbulk_set_state scenTC) ⟨ID_DAMAGED, attrZero, false⟩ true rfl i1 i2 i3
  rw [hstep] at f1 f4
  have hF : scenF1 = scenFrame (bbulk_set_state scenTC) := rfl
  rw [hF]
  exact ⟨f1, f2, f3, by rw [f4]; simp⟩

theorem scenF2_facts :
    (∀ k, k < 1920 → scenF2.1.prev k = ⟨65, attrZero, false⟩ ∧
      scenF2.1.damages k = false) ∧
    scenF2.1.attr = attrZero ∧ scenF2.1.redraw_margin = 0 ∧ scenF2.2 = 1920 := by
  obtain ⟨i1, i2, i3, _⟩ := scenF1_facts
  have hstep : cellStep ⟨65, attrZero, false⟩ true 65 attrZero =
      (⟨65, attrZero, false⟩, false, true) := by
    simp [cellStep]
  obtain ⟨f1, f2, f3, f4⟩ := scenFrame_uniform scenF1.1 ⟨65, attrZero, false⟩ true rfl i1 i2 i3
  rw [hstep] at f1 f4
  have hF : scenF2 = scenFrame scenF1.1 := rfl
  rw [hF]
  exact ⟨f1, f2, f3, by rw [f4]; simp⟩

theorem scenF3_count : scenF3.2 = 0 := by
  obtain ⟨i1, i2, i3, _⟩ := scenF2_facts
  have hstep : cellStep ⟨65, attrZero, false⟩ false 65 attrZero =
      (⟨65, attrZero, false⟩, false, false) := by
    simp [cellStep]
  obtain ⟨f1, f2, f3, f4⟩ := scenFrame_uniform scenF2.1 ⟨65, attrZero, false⟩ false rfl i1 i2 i3
  rw [hstep] at f4
  have hF : scenF3 = scenFrame scenF2.1 := rfl
  rw [hF, f4]
  simp

/-- C1 (counterexample): in the 640×384 / 8×16 NORMAL scenario with identical
content drawn in every cell for 3 frames and no attribute change, the second
frame's render submits 80*24 = 1920 blit requests, not 0 as claimed — a cell
drawn in frame 1 stays damage-flagged and is pushed again in frame 2 because
the display is double-buffered. -/
theorem c1_frame2_submits_1920_not_0 : scenF2.2 = 1920 ∧ ¬(scenF2.2 = 0) := by
  obtain ⟨-, -, -, h⟩ := scenF2_facts
  exact ⟨h, by rw [h]; decide⟩

/-- C1 (amended): `set()` on the 640×384 display with the 8×16 font cell in
NORMAL orientation computes cols = 80 and rows = 24, and with identical
content drawn in every cell for 3 consecutive quiet frames, frame 1 and
frame 2 each submit 80*24 blit requests (damage persists for two frames to
cover double buffering) and frame 3 submits 0. -/
theorem c1_amended_two_frame_redraw :
    scenTC.cols = 80 ∧ scenTC.rows = 24 ∧
    scenF1.2 = 80 * 24 ∧ scenF2.2 = 80 * 24 ∧ scenF3.2 = 0 := by
  obtain ⟨-, -, -, h1⟩ := scenF1_facts
  obtain ⟨-, -, -, h2⟩ := scenF2_facts
  exact ⟨scenTC_cols, scenTC_rows, by rw [h1], by rw [h2], scenF3_count⟩

theorem bbulk_draw_width0 (tc : TxtConf) (bb : BBState) (id len posx posy : Nat)
    (attr : TsmAttr) : bbulk_draw tc bb id len 0 posx posy attr = bb := by
  simp [bbulk_draw]

theorem drawCheck_reqs (bb : BBState) (id width offset : Nat) (lastCol : Bool)
    (attr : TsmAttr) (bb1 : BBState)
    (h : drawCheck bb id width offset lastCol attr = some bb1) : bb1.reqs = bb.reqs := by
  simp only [drawCheck] at h
  by_cases h1 : (bb.prev offset).id = id ∧ (bb.prev offset).attr = attr
  · rw [if_pos h1] at h
    by_cases h2 : ((bb.prev offset).overflow = true ∨ width = 2) ∧ lastCol = false
    · rw [if_pos h2] at h
      by_cases h3 : bb.damages offset = true ∨ bb.damages (offset + 1) = true ∨
          (bb.prev (offset + 1)).id = ID_DAMAGED
      · rw [if_pos h3] at h
        injection h with h
        subst h
        by_cases h4 : (bb.prev (offset + 1)).id = ID_OVERFLOW <;> simp [h4]
      · rw [if_neg h3] at h
        cases h
    · rw [if_neg h2] at h
      by_cases h4 : bb.damages offset = true
      · rw [if_pos h4] at h
        injection h with h
        subst h
        rfl
      · rw [if_neg h4] at h
        cases h
  · rw [if_neg h1] at h
    injection h with h
    subst h
    by_cases h2 : ((bb.prev offset).overflow = true ∨ width = 2) ∧ lastCol = false <;>
      simp [h2, damage_cell]

theorem drawEmit_reqs_gw2 (tc : TxtConf) (bb : BBState) (id posx posy : Nat)
    (attr : TsmAttr) (hgw : tc.gw id = 2) :
    (drawEmit tc bb id 2 posx posy false attr).reqs = bb.reqs ++
      [mkReq
        (set_coordinate tc
          (if tc.orientation = .OR_LEFT ∨ tc.orientation = .OR_UPSIDE_DOWN then posx + 1
            else posx) posy).1
        (set_coordinate tc
          (if tc.orientation = .OR_LEFT ∨ tc.orientation = .OR_UPSIDE_DOWN then posx + 1
            else posx) posy).2 id attr] := by
  have hne : posx + posy * tc.cols ≠ posx + posy * tc.cols + 1 := by omega
  simp [drawEmit, hgw, upd, hne]

/-- C2: for a glyph whose rendered width is 2 drawn with `width = 2` at a
column that is not the last, the draw emits at most one blit request, any
request it emits is anchored at the orientation mapping of the drawn cell —
shifted one cell to the right for LEFT and UPSIDE_DOWN orientations — the
companion `width = 0` draw (like every `width = 0` draw) is a complete
no-op, and when the cell content changed the request is emitted, so the
pair produces exactly one request. -/
theorem c2_double_width_single_request (tc : TxtConf) (bb : BBState)
    (id len posx posy : Nat) (attr : TsmAttr)
    (hgw : tc.gw id = 2) (hcol : posx + 1 < tc.cols) (hlen : len ≠ 0) :
    (∀ (bb' : BBState) (id' len' posx' posy' : Nat) (attr' : TsmAttr),
      bbulk_draw tc bb' id' len' 0 posx' posy' attr' = bb') ∧
    ((bbulk_draw tc bb id len 2 posx posy attr).reqs = bb.reqs ∨
      (bbulk_draw tc bb id len 2 posx posy attr).reqs = bb.reqs ++
        [mkReq
          (set_coordinate tc
            (if tc.orientation = .OR_LEFT ∨ tc.orientation = .OR_UPSIDE_DOWN then posx + 1
              else posx) posy).1
          (set_coordinate tc
            (if tc.orientation = .OR_LEFT ∨ tc.orientation = .OR_UPSIDE_DOWN then posx + 1
              else posx) posy).2 id attr]) ∧
    ((bb.prev (posx + posy * tc.cols)).id ≠ id →
      (bbulk_draw tc bb id len 2 posx posy attr).reqs = bb.reqs ++
        [mkReq
          (set_coordinate tc
            (if tc.orientation = .OR_LEFT ∨ tc.orientation = .OR_UPSIDE_DOWN then posx + 1
              else posx) posy).1
          (set_coordinate tc
            (if tc.orientation = .OR_LEFT ∨ tc.orientation = .OR_UPSIDE_DOWN then posx + 1
              else posx) posy).2 id attr]) := by
  have hlc : (decide (posx = tc.cols - 1)) = false := by
    apply decide_eq_false
    omega
  have hmain : ∀ bb1 : BBState,
      drawCheck bb id 2 (posx + posy * tc.cols) (decide (posx = tc.cols - 1)) attr =
        some bb1 →
      (bbulk_draw tc bb id len 2 posx posy attr).reqs = bb.reqs ++
        [mkReq
          (set_coordinate tc
            (if tc.orientation = .OR_LEFT ∨ tc.orientation = .OR_UPSIDE_DOWN then posx + 1
              else posx) posy).1
          (set_coordinate tc
            (if tc.orientation = .OR_LEFT ∨ tc.orientation = .OR_UPSIDE_DOWN then posx + 1
              else posx) posy).2 id attr] := by
    intro bb1 hsome
    have hdraw : bbulk_draw tc bb id len 2 posx posy attr =
        drawEmit tc bb1 id 2 posx posy (decide (posx = tc.cols - 1)) attr := by
      simp only [bbulk_draw]
      rw [if_neg (by omega : ¬(2 : Nat) = 0),
        if_neg (by simp [hlen] : ¬(len = 0 ∧ posx ≠ 0 ∧
          (bb.prev (posx + posy * tc.cols - 1)).overflow = true)), hsome]
    rw [hdraw, hlc, drawEmit_reqs_gw2 tc bb1 id posx posy attr hgw,
      drawCheck_reqs bb id 2 (posx + posy * tc.cols) (decide (posx = tc.cols - 1)) attr bb1
        hsome]
  refine ⟨?_, ?_, ?_⟩
  · intro bb' id' len' posx' posy' attr'
    exact bbulk_draw_width0 tc bb' id' len' posx' posy' attr'
  · cases hcase : drawCheck bb id 2 (posx + posy * tc.cols)
        (decide (posx = tc.cols - 1)) attr with
    | none =>
      left
      simp only [bbulk_draw]
      rw [if_neg (by omega : ¬(2 : Nat) = 0),
        if_neg (by simp [hlen] : ¬(len = 0 ∧ posx ≠ 0 ∧
          (bb.prev (posx + posy * tc.cols - 1)).overflow = true)), hcase]
    | some bb1 =>
      right
      exact hmain bb1 hcase
  · intro hid
    have hsome : drawCheck bb id 2 (posx + posy * tc.cols)
        (decide (posx = tc.cols - 1)) attr =
        some (if ((bb.prev (posx + posy * tc.cols)).overflow = true ∨ (2 : Nat) = 2) ∧
            (decide (posx = tc.cols - 1)) = false then
          damage_cell { bb with damages := upd bb.damages (posx + posy * tc.cols) true }
            (posx + posy * tc.cols + 1)
        else { bb with damages := upd bb.damages (posx + posy * tc.cols) true }) := by
      simp only [drawCheck]
      rw [if_neg (by simp [hid] : ¬((bb.prev (posx + posy * tc.cols)).id = id ∧
        (bb.prev (posx + posy * tc.cols)).attr = attr))]
    exact hmain _ hsome

/-- Small concrete configuration used by the witnesses: 4×2 grid, 8×16 font,
NORMAL orientation, every glyph reported double-width by the font service. -/
def wTC : TxtConf :=
  { cols := 4, rows := 2, fontW := 8, fontH := 16, sw := 32, sh := 32,
    orientation := .OR_NORMAL, gw := fun _ => 2 }

/-- Small concrete renderer state used by the witnesses: clean cells, no
damage, no pending requests. -/
def wBB : BBState :=
  { prev := fun _ => ⟨0, attrZero, false⟩
    damages := fun _ => false
    reqs := []
    attr := attrZero
    redraw_margin := 0
    damage_rect_list := [] }

theorem c2_double_width_single_request_witness :
    wTC.gw 7 = 2 ∧ 0 + 1 < wTC.cols ∧ (1 : Nat) ≠ 0 ∧
    (wBB.prev (0 + 0 * wTC.cols)).id ≠ 7 ∧
    (bbulk_draw wTC wBB 7 1 2 0 0 attrZero).reqs = wBB.reqs ++
      [mkReq
        (set_coordinate wTC
          (if wTC.orientation = .OR_LEFT ∨ wTC.orientation = .OR_UPSIDE_DOWN then 0 + 1
            else 0) 0).1
        (set_coordinate wTC
          (if wTC.orientation = .OR_LEFT ∨ wTC.orientation = .OR_UPSIDE_DOWN then 0 + 1
            else 0) 0).2 7 attrZero] :=
  ⟨rfl, by decide, by decide, by decide,
    (c2_double_width_single_request wTC wBB 7 1 0 0 attrZero rfl (by decide)
      (by decide)).2.2 (by decide)⟩

theorem merge_damage_append (xs : List VRect) (a r : VRect) :
    merge_damage (xs ++ [a]) r = xs ++ [rectUnion a r] := by
  induction xs with
  | nil => rfl
  | cons x xs ih =>
    cases xs with
    | nil => rfl
    | cons y ys =>
      show x :: merge_damage (y :: ys ++ [a]) r = x :: (y :: ys ++ [rectUnion a r])
      rw [ih]

theorem offset_ne (posx c posy row cols : Nat) (hx : posx < cols) (hc : c < cols)
    (hne : posy ≠ row) : posx + posy * cols ≠ c + row * cols := by
  intro h
  rcases Nat.lt_or_ge posy row with hlt | hge
  · have hle : (posy + 1) * cols ≤ row * cols :=
      Nat.mul_le_mul_right _ (Nat.succ_le_of_lt hlt)
    have hx2 : posy * cols + cols ≤ row * cols := by
      calc posy * cols + cols = (posy + 1) * cols := by ring
        _ ≤ row * cols := hle
    omega
  · have hgt : row < posy := by omega
    have hle : (row + 1) * cols ≤ posy * cols :=
      Nat.mul_le_mul_right _ (Nat.succ_le_of_lt hgt)
    have hx2 : row * cols + cols ≤ posy * cols := by
      calc row * cols + cols = (row + 1) * cols := by ring
        _ ≤ posy * cols := hle
    omega

theorem damScanCols_compose (tc : TxtConf) (dam : Nat → Bool) (posy : Nat) (a : Nat) :
    ∀ (b posx : Nat) (st : DamScan),
      damScanCols tc dam posy st posx (a + b) =
        damScanCols tc dam posy (damScanCols tc dam posy st posx a) (posx + a) b := by
  induction a with
  | zero =>
    intro b posx st
    simp [damScanCols]
  | succ a ih =>
    intro b posx st
    have h1 : a + 1 + b = (a + b) + 1 := by omega
    rw [h1]
    show damScanCols tc dam posy (damScanCell tc dam posy st posx) (posx + 1) (a + b) = _
    rw [ih b (posx + 1) (damScanCell tc dam posy st posx)]
    have h2 : posx + 1 + a = posx + (a + 1) := by omega
    rw [h2]
    rfl

theorem damScanCols_nodam (tc : TxtConf) (dam : Nat → Bool) (posy : Nat) (n : Nat) :
    ∀ (posx : Nat) (st : DamScan),
      (∀ k, k < n → dam (posx + k + posy * tc.cols) = false) →
      damScanCols tc dam posy st posx n = ⟨st.rects, st.prevCnt - n⟩ := by
  induction n with
  | zero =>
    intro posx st _
    cases st
    simp [damScanCols]
  | succ n ih =>
    intro posx st H
    have h0 : dam (posx + posy * tc.cols) = false := by
      have := H 0 (Nat.succ_pos n)
      simpa using this
    show damScanCols tc dam posy (damScanCell tc dam posy st posx) (posx + 1) n = _
    have hcell : damScanCell tc dam posy st posx = { st with prevCnt := st.prevCnt - 1 } := by
      simp [damScanCell, h0]
    rw [hcell, ih (posx + 1) _ (by
      intro k hk
      have hidx : posx + 1 + k + posy * tc.cols = posx + (k + 1) + posy * tc.cols := by omega
      rw [hidx]
      exact H (k + 1) (by omega))]
    have : st.prevCnt - 1 - n = st.prevCnt - (n + 1) := by omega
    simp [this]

theorem damScanCols_row_one (tc : TxtConf) (dam : Nat → Bool) (row c : Nat) (R : List VRect)
    (hc : c < tc.cols)
    (hdam : ∀ k, k < tc.cols → dam (k + row * tc.cols) = decide (k = c)) :
    damScanCols tc dam row ⟨R, 0⟩ 0 tc.cols =
      ⟨R ++ [cellRect tc c row], DAMAGE_MERGE_LEN - (tc.cols - c - 1)⟩ := by
  have hA : damScanCols tc dam row ⟨R, 0⟩ 0 c = ⟨R, 0⟩ := by
    have h := damScanCols_nodam tc dam row c 0 ⟨R, 0⟩ (by
      intro k hk
      have hidx : 0 + k + row * tc.cols = k + row * tc.cols := by omega
      rw [hidx, hdam k (by omega)]
      simp only [decide_eq_false_iff_not]
      omega)
    simpa using h
  have hB : damScanCell tc dam row ⟨R, 0⟩ c = ⟨R ++ [cellRect tc c row], DAMAGE_MERGE_LEN⟩ := by
    have hd : dam (c + row * tc.cols) = true := by
      rw [hdam c hc]
      simp
    simp [damScanCell, hd]
  have hE : damScanCols tc dam row ⟨R ++ [cellRect tc c row], DAMAGE_MERGE_LEN⟩ (c + 1)
      (tc.cols - c - 1) =
      ⟨R ++ [cellRect tc c row], DAMAGE_MERGE_LEN - (tc.cols - c - 1)⟩ := by
    have h := damScanCols_nodam tc dam row (tc.cols - c - 1) (c + 1)
      ⟨R ++ [cellRect tc c row], DAMAGE_MERGE_LEN⟩ (by
        intro k hk
        rw [hdam (c + 1 + k) (by omega)]
        simp only [decide_eq_false_iff_not]
        omega)
    simpa using h
  calc damScanCols tc dam row ⟨R, 0⟩ 0 tc.cols
      = damScanCols tc dam row ⟨R, 0⟩ 0 (c + (1 + (tc.cols - c - 1))) := by
        rw [show c + (1 + (tc.cols - c - 1)) = tc.cols from by omega]
    _ = damScanCols tc dam row (damScanCols tc dam row ⟨R, 0⟩ 0 c) (0 + c)
        (1 + (tc.cols - c - 1)) := damScanCols_compose tc dam row c _ 0 ⟨R, 0⟩
    _ = damScanCols tc dam row ⟨R, 0⟩ c (1 + (tc.cols - c - 1)) := by
        rw [hA, Nat.zero_add]
    _ = damScanCols tc dam row (damScanCols tc dam row ⟨R, 0⟩ c 1) (c + 1)
        (tc.cols - c - 1) := damScanCols_compose tc dam row 1 _ c ⟨R, 0⟩
    _ = damScanCols tc dam row ⟨R ++ [cellRect tc c row], DAMAGE_MERGE_LEN⟩ (c + 1)
        (tc.cols - c - 1) := by
        have h1 : damScanCols tc dam row ⟨R, 0⟩ c 1 = damScanCell tc dam row ⟨R, 0⟩ c := rfl
        rw [h1, hB]
    _ = ⟨R ++ [cellRect tc c row], DAMAGE_MERGE_LEN - (tc.cols - c - 1)⟩ := hE

theorem damScanCols_row_two (tc : TxtConf) (dam : Nat → Bool) (row c1 c2 : Nat)
    (R : List VRect) (h12 : c1 < c2) (h2c : c2 < tc.cols)
    (hdam : ∀ k, k < tc.cols →
      dam (k + row * tc.cols) = (decide (k = c1) || decide (k = c2))) :
    damScanCols tc dam row ⟨R, 0⟩ 0 tc.cols =
      ⟨if c2 - c1 ≤ DAMAGE_MERGE_LEN then
          R ++ [rectUnion (cellRect tc c1 row) (cellRect tc c2 row)]
        else (R ++ [cellRect tc c1 row]) ++ [cellRect tc c2 row],
       DAMAGE_MERGE_LEN - (tc.cols - c2 - 1)⟩ := by
  have hA : damScanCols tc dam row ⟨R, 0⟩ 0 c1 = ⟨R, 0⟩ := by
    have h := damScanCols_nodam tc dam row c1 0 ⟨R, 0⟩ (by
      intro k hk
      have hidx : 0 + k + row * tc.cols = k + row * tc.cols := by omega
      rw [hidx, hdam k (by omega)]
      simp only [Bool.or_eq_false_iff, decide_eq_false_iff_not]
      omega)
    simpa using h
  have hB : damScanCell tc dam row ⟨R, 0⟩ c1 =
      ⟨R ++ [cellRect tc c1 row], DAMAGE_MERGE_LEN⟩ := by
    have hd : dam (c1 + row * tc.cols) = true := by
      rw [hdam c1 (by omega)]
      simp
    simp [damScanCell, hd]
  have hC : damScanCols tc dam row ⟨R ++ [cellRect tc c1 row], DAMAGE_MERGE_LEN⟩ (c1 + 1)
      (c2 - c1 - 1) =
      ⟨R ++ [cellRect tc c1 row], DAMAGE_MERGE_LEN - (c2 - c1 - 1)⟩ := by
    have h := damScanCols_nodam tc dam row (c2 - c1 - 1) (c1 + 1)
      ⟨R ++ [cellRect tc c1 row], DAMAGE_MERGE_LEN⟩ (by
        intro k hk
        rw [hdam (c1 + 1 + k) (by omega)]
        simp only [Bool.or_eq_false_iff, decide_eq_false_iff_not]
        omega)
    simpa using h
  have hD : damScanCell tc dam row
      ⟨R ++ [cellRect tc c1 row], DAMAGE_MERGE_LEN - (c2 - c1 - 1)⟩ c2 =
      ⟨if c2 - c1 ≤ DAMAGE_MERGE_LEN then
          R ++ [rectUnion (cellRect tc c1 row) (cellRect tc c2 row)]
        else (R ++ [cellRect tc c1 row]) ++ [cellRect tc c2 row],
       DAMAGE_MERGE_LEN⟩ := by
    have hd : dam (c2 + row * tc.cols) = true := by
      rw [hdam c2 h2c]
      simp
    by_cases hm : c2 - c1 ≤ DAMAGE_MERGE_LEN
    · have hp : DAMAGE_MERGE_LEN - (c2 - c1 - 1) ≠ 0 := by
        simp only [DAMAGE_MERGE_LEN] at hm ⊢
        omega
      simp [damScanCell, hd, hp, hm, merge_damage_append]
    · have hp : DAMAGE_MERGE_LEN - (c2 - c1 - 1) = 0 := by
        simp only [DAMAGE_MERGE_LEN] at hm ⊢
        omega
      simp [damScanCell, hd, hp, hm]
  have hE : damScanCols tc dam row
      ⟨if c2 - c1 ≤ DAMAGE_MERGE_LEN then
          R ++ [rectUnion (cellRect tc c1 row) (cellRect tc c2 row)]
        else (R ++ [cellRect tc c1 row]) ++ [cellRect tc c2 row],
       DAMAGE_MERGE_LEN⟩ (c2 + 1) (tc.cols - c2 - 1) =
      ⟨if c2 - c1 ≤ DAMAGE_MERGE_LEN then
          R ++ [rectUnion (cellRect tc c1 row) (cellRect tc c2 row)]
        else (R ++ [cellRect tc c1 row]) ++ [cellRect tc c2 row],
       DAMAGE_MERGE_LEN - (tc.cols - c2 - 1)⟩ := by
    have h := damScanCols_nodam tc dam row (tc.cols - c2 - 1) (c2 + 1)
      ⟨if c2 - c1 ≤ DAMAGE_MERGE_LEN then
          R ++ [rectUnion (cellRect tc c1 row) (cellRect tc c2 row)]
        else (R ++ [cellRect tc c1 row]) ++ [cellRect tc c2 row],
       DAMAGE_MERGE_LEN⟩ (by
      intro k hk
      rw [hdam (c2 + 1 + k) (by omega)]
      simp only [Bool.or_eq_false_iff, decide_eq_false_iff_not]
      omega)
    simpa using h
  calc damScanCols tc dam row ⟨R, 0⟩ 0 tc.cols
      = damScanCols tc dam row ⟨R, 0⟩ 0
          (c1 + (1 + ((c2 - c1 - 1) + (1 + (tc.cols - c2 - 1))))) := by
        rw [show c1 + (1 + ((c2 - c1 - 1) + (1 + (tc.cols - c2 - 1)))) = tc.cols from by omega]
    _ = damScanCols tc dam row (damScanCols tc dam row ⟨R, 0⟩ 0 c1) (0 + c1)
          (1 + ((c2 - c1 - 1) + (1 + (tc.cols - c2 - 1)))) :=
        damScanCols_compose tc dam row c1 _ 0 ⟨R, 0⟩
    _ = damScanCols tc dam row ⟨R, 0⟩ c1
          (1 + ((c2 - c1 - 1) + (1 + (tc.cols - c2 - 1)))) := by
        rw [hA, Nat.zero_add]
    _ = damScanCols tc dam row (damScanCols tc dam row ⟨R, 0⟩ c1 1) (c1 + 1)
          ((c2 - c1 - 1) + (1 + (tc.cols - c2 - 1))) :=
        damScanCols_compose tc dam row 1 _ c1 ⟨R, 0⟩
    _ = damScanCols tc dam row ⟨R ++ [cellRect tc c1 row], DAMAGE_MERGE_LEN⟩ (c1 + 1)
          ((c2 - c1 - 1) + (1 + (tc.cols - c2 - 1))) := by
        have h1 : damScanCols tc dam row ⟨R, 0⟩ c1 1 = damScanCell tc dam row ⟨R, 0⟩ c1 := rfl
        rw [h1, hB]
    _ = damScanCols tc dam row
          (damScanCols tc dam row ⟨R ++ [cellRect tc c1 row], DAMAGE_MERGE_LEN⟩ (c1 + 1)
            (c2 - c1 - 1)) (c1 + 1 + (c2 - c1 - 1)) (1 + (tc.cols - c2 - 1)) :=
        damScanCols_compose tc dam row (c2 - c1 - 1) _ (c1 + 1) _
    _ = damScanCols tc dam row
          ⟨R ++ [cellRect tc c1 row], DAMAGE_MERGE_LEN - (c2 - c1 - 1)⟩ c2
          (1 + (tc.cols - c2 - 1)) := by
        rw [hC, show c1 + 1 + (c2 - c1 - 1) = c2 from by omega]
    _ = damScanCols tc dam row
          (damScanCols tc dam row
            ⟨R ++ [cellRect tc c1 row], DAMAGE_MERGE_LEN - (c2 - c1 - 1)⟩ c2 1)
          (c2 + 1) (tc.cols - c2 - 1) :=
        damScanCols_compose tc dam row 1 _ c2 _
    _ = ⟨if c2 - c1 ≤ DAMAGE_MERGE_LEN then
            R ++ [rectUnion (cellRect tc c1 row) (cellRect tc c2 row)]
          else (R ++ [cellRect tc c1 row]) ++ [cellRect tc c2 row],
         DAMAGE_MERGE_LEN - (tc.cols - c2 - 1)⟩ := by
        have h1 : damScanCols tc dam row
            ⟨R ++ [cellRect tc c1 row], DAMAGE_MERGE_LEN - (c2 - c1 - 1)⟩ c2 1 =
            damScanCell tc dam row
              ⟨R ++ [cellRect tc c1 row], DAMAGE_MERGE_LEN - (c2 - c1 - 1)⟩ c2 := rfl
        rw [h1, hD, hE]

theorem damScanRows_compose (tc : TxtConf) (dam : Nat → Bool) (a : Nat) :
    ∀ (b posy : Nat) (st : DamScan),
      damScanRows tc dam st posy (a + b) =
        damScanRows tc dam (damScanRows tc dam st posy a) (posy + a) b := by
  induction a with
  | zero =>
    intro b posy st
    simp [damScanRows]
  | succ a ih =>
    intro b posy st
    have h1 : a + 1 + b = (a + b) + 1 := by omega
    rw [h1]
    show damScanRows tc dam
      (damScanCols tc dam posy { st with prevCnt := 0 } 0 tc.cols) (posy + 1) (a + b) = _
    rw [ih b (posy + 1) _]
    have h2 : posy + 1 + a = posy + (a + 1) := by omega
    rw [h2]
    rfl

theorem damScanRows_nodam (tc : TxtConf) (dam : Nat → Bool) (m : Nat) :
    ∀ (posy : Nat) (st : DamScan),
      (∀ py k, posy ≤ py → py < posy + m → k < tc.cols → dam (k + py * tc.cols) = false) →
      (damScanRows tc dam st posy m).rects = st.rects := by
  induction m with
  | zero =>
    intro posy st _
    rfl
  | succ m ih =>
    intro posy st H
    show (damScanRows tc dam
      (damScanCols tc dam posy { st with prevCnt := 0 } 0 tc.cols) (posy + 1) m).rects = _
    have hrow := damScanCols_nodam tc dam posy tc.cols 0 { st with prevCnt := 0 } (by
      intro k hk
      have hidx : 0 + k + posy * tc.cols = k + posy * tc.cols := by omega
      rw [hidx]
      exact H posy k (le_refl posy) (by omega) hk)
    rw [hrow]
    have := ih (posy + 1) ⟨st.rects, 0 - tc.cols⟩ (by
      intro py k hpy1 hpy2 hkc
      exact H py k (by omega) (by omega) hkc)
    simpa using this

/-- Damage pattern with exactly two damaged cells, at `(c1, r1)` and
`(c2, r2)` of the grid. -/
def patTwoCells (tc : TxtConf) (r1 c1 r2 c2 : Nat) : Nat → Bool :=
  fun off => decide (off = c1 + r1 * tc.cols) || decide (off = c2 + r2 * tc.cols)

theorem computeDamage_two_same_row (tc : TxtConf) (row c1 c2 : Nat)
    (h12 : c1 < c2) (h2c : c2 < tc.cols) (hrow : row < tc.rows) :
    bbulk_compute_damage tc (patTwoCells tc row c1 row c2) =
      if c2 - c1 ≤ DAMAGE_MERGE_LEN then
        [rectUnion (cellRect tc c1 row) (cellRect tc c2 row)]
      else [cellRect tc c1 row, cellRect tc c2 row] := by
  have hnodam : ∀ py k, py ≠ row → k < tc.cols →
      patTwoCells tc row c1 row c2 (k + py * tc.cols) = false := by
    intro py k hne hk
    have e1 := offset_ne k c1 py row tc.cols hk (by omega) hne
    have e2 := offset_ne k c2 py row tc.cols hk h2c hne
    simp only [patTwoCells, Bool.or_eq_false_iff, decide_eq_false_iff_not]
    exact ⟨e1, e2⟩
  have hdamrow : ∀ k, k < tc.cols →
      patTwoCells tc row c1 row c2 (k + row * tc.cols) =
        (decide (k = c1) || decide (k = c2)) := by
    intro k _
    simp [patTwoCells, add_left_inj]
  set dam := patTwoCells tc row c1 row c2 with hdamdef
  set S1 := damScanRows tc dam ⟨[], 0⟩ 0 row with hS1def
  have hS1 : S1.rects = [] := by
    rw [hS1def]
    exact damScanRows_nodam tc dam row 0 ⟨[], 0⟩ (by
      intro py k _ hpy hk
      exact hnodam py k (by omega) hk)
  have hzero : ({ S1 with prevCnt := 0 } : DamScan) = ⟨[], 0⟩ := by
    rw [show ({ S1 with prevCnt := 0 } : DamScan) = ⟨S1.rects, 0⟩ from rfl, hS1]
  have hrowscan := damScanCols_row_two tc dam row c1 c2 [] h12 h2c hdamrow
  unfold bbulk_compute_damage
  rw [show tc.rows = row + (1 + (tc.rows - row - 1)) from by omega,
    damScanRows_compose tc dam row (1 + (tc.rows - row - 1)) 0 ⟨[], 0⟩,
    Nat.zero_add,
    damScanRows_compose tc dam 1 (tc.rows - row - 1) row S1]
  have hone : damScanRows tc dam S1 row 1 =
      damScanCols tc dam row { S1 with prevCnt := 0 } 0 tc.cols := rfl
  rw [hone, hzero, hrowscan]
  have hafter := damScanRows_nodam tc dam (tc.rows - row - 1) (row + 1)
    ⟨if c2 - c1 ≤ DAMAGE_MERGE_LEN then
        [] ++ [rectUnion (cellRect tc c1 row) (cellRect tc c2 row)]
      else ([] ++ [cellRect tc c1 row]) ++ [cellRect tc c2 row],
     DAMAGE_MERGE_LEN - (tc.cols - c2 - 1)⟩ (by
      intro py k hpy1 _ hk
      exact hnodam py k (by omega) hk)
  rw [hafter]
  split <;> simp

theorem computeDamage_two_rows (tc : TxtConf) (r1 c1 r2 c2 : Nat)
    (hr : r1 < r2) (hr2 : r2 < tc.rows) (hc1 : c1 < tc.cols) (hc2 : c2 < tc.cols) :
    bbulk_compute_damage tc (patTwoCells tc r1 c1 r2 c2) =
      [cellRect tc c1 r1, cellRect tc c2 r2] := by
  have hnodam : ∀ py k, py ≠ r1 → py ≠ r2 → k < tc.cols →
      patTwoCells tc r1 c1 r2 c2 (k + py * tc.cols) = false := by
    intro py k hne1 hne2 hk
    have e1 := offset_ne k c1 py r1 tc.cols hk hc1 hne1
    have e2 := offset_ne k c2 py r2 tc.cols hk hc2 hne2
    simp only [patTwoCells, Bool.or_eq_false_iff, decide_eq_false_iff_not]
    exact ⟨e1, e2⟩
  have hdamr1 : ∀ k, k < tc.cols →
      patTwoCells tc r1 c1 r2 c2 (k + r1 * tc.cols) = decide (k = c1) := by
    intro k hk
    have e2 := offset_ne k c2 r1 r2 tc.cols hk hc2 (by omega)
    simp [patTwoCells, add_left_inj, e2]
  have hdamr2 : ∀ k, k < tc.cols →
      patTwoCells tc r1 c1 r2 c2 (k + r2 * tc.cols) = decide (k = c2) := by
    intro k hk
    have e1 := offset_ne k c1 r2 r1 tc.cols hk hc1 (by omega)
    simp [patTwoCells, add_left_inj, e1]
  set dam := patTwoCells tc r1 c1 r2 c2 with hdamdef
  set S1 := damScanRows tc dam ⟨[], 0⟩ 0 r1 with hS1def
  have hS1 : S1.rects = [] := by
    rw [hS1def]
    exact damScanRows_nodam tc dam r1 0 ⟨[], 0⟩ (by
      intro py k _ hpy hk
      exact hnodam py k (by omega) (by omega) hk)
  have hzero1 : ({ S1 with prevCnt := 0 } : DamScan) = ⟨[], 0⟩ := by
    rw [show ({ S1 with prevCnt := 0 } : DamScan) = ⟨S1.rects, 0⟩ from rfl, hS1]
  have hrow1 := damScanCols_row_one tc dam r1 c1 [] hc1 hdamr1
  unfold bbulk_compute_damage
  rw [show tc.rows = r1 + (1 + ((r2 - r1 - 1) + (1 + (tc.rows - r2 - 1)))) from by omega,
    damScanRows_compose tc dam r1 _ 0 ⟨[], 0⟩,
    Nat.zero_add,
    damScanRows_compose tc dam 1 _ r1 S1]
  have hone1 : damScanRows tc dam S1 r1 1 =
      damScanCols tc dam r1 { S1 with prevCnt := 0 } 0 tc.cols := rfl
  rw [hone1, hzero1, hrow1]
  set M1 : DamScan := ⟨[] ++ [cellRect tc c1 r1], DAMAGE_MERGE_LEN - (tc.cols - c1 - 1)⟩
    with hM1def
  rw [damScanRows_compose tc dam (r2 - r1 - 1) _ (r1 + 1) M1]
  set S2 := damScanRows tc dam M1 (r1 + 1) (r2 - r1 - 1) with hS2def
  have hS2 : S2.rects = [cellRect tc c1 r1] := by
    rw [hS2def]
    have := damScanRows_nodam tc dam (r2 - r1 - 1) (r1 + 1) M1 (by
      intro py k hpy1 hpy2 hk
      exact hnodam py k (by omega) (by omega) hk)
    rw [this, hM1def]
    simp
  have hzero2 : ({ S2 with prevCnt := 0 } : DamScan) = ⟨[cellRect tc c1 r1], 0⟩ := by
    rw [show ({ S2 with prevCnt := 0 } : DamScan) = ⟨S2.rects, 0⟩ from rfl, hS2]
  have hrow2 := damScanCols_row_one tc dam r2 c2 [cellRect tc c1 r1] hc2 hdamr2
  rw [show r1 + 1 + (r2 - r1 - 1) = r2 from by omega,
    damScanRows_compose tc dam 1 _ r2 S2]
  have hone2 : damScanRows tc dam S2 r2 1 =
      damScanCols tc dam r2 { S2 with prevCnt := 0 } 0 tc.cols := rfl
  rw [hone2, hzero2, hrow2]
  have hafter := damScanRows_nodam tc dam (tc.rows - r2 - 1) (r2 + 1)
    ⟨[cellRect tc c1 r1] ++ [cellRect tc c2 r2],
     DAMAGE_MERGE_LEN - (tc.cols - c2 - 1)⟩ (by
      intro py k hpy1 _ hk
      exact hnodam py k (by omega) (by omega) hk)
  rw [hafter]
  simp

/-- C3: with exactly two damaged cells in one row, at columns c1 < c2,
`bbulk_compute_damage` emits one rectangle spanning both cells (their
union) when c2 - c1 ≤ DAMAGE_MERGE_LEN = 3, and two rectangles, one per
cell, when c2 - c1 > 3; and two damaged cells in different rows always
produce two rectangles — damage never merges across rows. -/
theorem c3_damage_merge_bound (tc : TxtConf) (row c1 c2 : Nat)
    (h12 : c1 < c2) (h2c : c2 < tc.cols) (hrow : row < tc.rows) :
    (bbulk_compute_damage tc (patTwoCells tc row c1 row c2) =
      if c2 - c1 ≤ DAMAGE_MERGE_LEN then
        [rectUnion (cellRect tc c1 row) (cellRect tc c2 row)]
      else [cellRect tc c1 row, cellRect tc c2 row]) ∧
    (∀ r1 c1' r2 c2', r1 < r2 → r2 < tc.rows → c1' < tc.cols → c2' < tc.cols →
      bbulk_compute_damage tc (patTwoCells tc r1 c1' r2 c2') =
        [cellRect tc c1' r1, cellRect tc c2' r2]) :=
  ⟨computeDamage_two_same_row tc row c1 c2 h12 h2c hrow,
   fun r1 c1' r2 c2' hr hr2 hc1 hc2 =>
     computeDamage_two_rows tc r1 c1' r2 c2' hr hr2 hc1 hc2⟩

theorem c3_damage_merge_bound_witness :
    (0 : Nat) < 2 ∧ (2 : Nat) < wTC.cols ∧ (0 : Nat) < wTC.rows ∧
    (bbulk_compute_damage wTC (patTwoCells wTC 0 0 0 2) =
      if 2 - 0 ≤ DAMAGE_MERGE_LEN then
        [rectUnion (cellRect wTC 0 0) (cellRect wTC 2 0)]
      else [cellRect wTC 0 0, cellRect wTC 2 0]) ∧
    bbulk_compute_damage wTC (patTwoCells wTC 0 1 1 3) =
      [cellRect wTC 1 0, cellRect wTC 3 1] :=
  ⟨by decide, by decide, by decide,
   (c3_damage_merge_bound wTC 0 0 2 (by decide) (by decide) (by decide)).1,
   (c3_damage_merge_bound wTC 0 0 2 (by decide) (by decide) (by decide)).2 0 1 1 3
     (by decide) (by decide) (by decide) (by decide)⟩

theorem merge_damage_length (rects : List VRect) (r : VRect) :
    (merge_damage rects r).length = rects.length := by
  induction rects with
  | nil => rfl
  | cons a l ih =>
    cases l with
    | nil => rfl
    | cons b m => simp_all [merge_damage]

theorem damScanCols_len (tc : TxtConf) (dam : Nat → Bool) (posy : Nat) (n : Nat) :
    ∀ (posx : Nat) (st : DamScan), st.prevCnt ≤ DAMAGE_MERGE_LEN →
      (damScanCols tc dam posy st posx n).rects.length ≤
        st.rects.length + (n + DAMAGE_MERGE_LEN - st.prevCnt) / (DAMAGE_MERGE_LEN + 1) ∧
      (damScanCols tc dam posy st posx n).prevCnt ≤ DAMAGE_MERGE_LEN := by
  induction n with
  | zero =>
    intro posx st h
    exact ⟨by simp [damScanCols], by simp [damScanCols, h]⟩
  | succ n ih =>
    intro posx st h
    show (damScanCols tc dam posy (damScanCell tc dam posy st posx) (posx + 1) n).rects.length ≤
        st.rects.length + (n + 1 + DAMAGE_MERGE_LEN - st.prevCnt) / (DAMAGE_MERGE_LEN + 1) ∧
      (damScanCols tc dam posy (damScanCell tc dam posy st posx) (posx + 1) n).prevCnt ≤
        DAMAGE_MERGE_LEN
    by_cases hd : dam (posx + posy * tc.cols) = true
    · by_cases hp : st.prevCnt ≠ 0
      · have hcell : damScanCell tc dam posy st posx =
            ⟨merge_damage st.rects (cellRect tc posx posy), DAMAGE_MERGE_LEN⟩ := by
          simp [damScanCell, hd, hp]
        obtain ⟨l1, l2⟩ := ih (posx + 1)
          ⟨merge_damage st.rects (cellRect tc posx posy), DAMAGE_MERGE_LEN⟩ (le_refl _)
        rw [hcell]
        refine ⟨?_, l2⟩
        refine le_trans l1 ?_
        simp only [merge_damage_length, DAMAGE_MERGE_LEN] at *
        omega
      · have hp0 : st.prevCnt = 0 := by omega
        have hcell : damScanCell tc dam posy st posx =
            ⟨st.rects ++ [cellRect tc posx posy], DAMAGE_MERGE_LEN⟩ := by
          simp [damScanCell, hd, hp0]
        obtain ⟨l1, l2⟩ := ih (posx + 1)
          ⟨st.rects ++ [cellRect tc posx posy], DAMAGE_MERGE_LEN⟩ (le_refl _)
        rw [hcell]
        refine ⟨?_, l2⟩
        refine le_trans l1 ?_
        simp only [List.length_append, List.length_cons, List.length_nil, hp0,
          DAMAGE_MERGE_LEN] at *
        omega
    · have hd0 : dam (posx + posy * tc.cols) = false := by
        simp only [Bool.not_eq_true] at hd
        exact hd
      have hcell : damScanCell tc dam posy st posx = { st with prevCnt := st.prevCnt - 1 } := by
        simp [damScanCell, hd0]
      obtain ⟨l1, l2⟩ := ih (posx + 1) { st with prevCnt := st.prevCnt - 1 } (by
        simp only [DAMAGE_MERGE_LEN] at *
        omega)
      rw [hcell]
      refine ⟨?_, l2⟩
      refine le_trans l1 ?_
      simp only [DAMAGE_MERGE_LEN] at *
      omega

theorem damScanRows_len (tc : TxtConf) (dam : Nat → Bool) (m : Nat) :
    ∀ (posy : Nat) (st : DamScan),
      (damScanRows tc dam st posy m).rects.length ≤
        st.rects.length + m * ((tc.cols + DAMAGE_MERGE_LEN) / (DAMAGE_MERGE_LEN + 1)) := by
  induction m with
  | zero =>
    intro posy st
    simp [damScanRows]
  | succ m ih =>
    intro posy st
    show (damScanRows tc dam
      (damScanCols tc dam posy { st with prevCnt := 0 } 0 tc.cols) (posy + 1) m).rects.length ≤ _
    obtain ⟨l1, -⟩ := damScanCols_len tc dam posy tc.cols 0 { st with prevCnt := 0 } (by
      simp [DAMAGE_MERGE_LEN])
    refine le_trans (ih (posy + 1) _) ?_
    have hb : (damScanCols tc dam posy { st with prevCnt := 0 } 0 tc.cols).rects.length ≤
        st.rects.length + (tc.cols + DAMAGE_MERGE_LEN) / (DAMAGE_MERGE_LEN + 1) := by
      refine le_trans l1 ?_
      simp
    have := Nat.add_le_add_right hb (m * ((tc.cols + DAMAGE_MERGE_LEN) / (DAMAGE_MERGE_LEN + 1)))
    refine le_trans this ?_
    ring_nf
    omega

/-- C9: for every damage-flag configuration, `bbulk_compute_damage` produces
at most `SHL_DIV_ROUND_UP(cols, DAMAGE_MERGE_LEN + 1) * rows` rectangles —
the exact capacity `bbulk_set` allocates for `damage_rects` — so every
rectangle write stays inside the array. -/
theorem c9_damage_rects_within_capacity (tc : TxtConf) (dam : Nat → Bool) :
    (bbulk_compute_damage tc dam).length ≤ bbulk_max_damage_rects tc.cols tc.rows := by
  have h := damScanRows_len tc dam tc.rows 0 ⟨[], 0⟩
  simp only [List.length_nil, Nat.zero_add] at h
  simp only [bbulk_max_damage_rects, shl_div_round_up, DAMAGE_MERGE_LEN] at *
  have e : tc.cols + 4 - 1 = tc.cols + 3 := by omega
  rw [e, Nat.mul_comm]
  exact h

theorem pointer_cell_pos_le (tc : TxtConf) (x y : Nat) :
    (pointer_cell_pos tc x y).1 ≤ tc.cols - 1 ∧
    (pointer_cell_pos tc x y).2 ≤ tc.rows - 1 := by
  simp only [pointer_cell_pos]
  constructor <;> (repeat' split) <;> omega

/-- C10: for every pointer pixel position, display geometry (at least one
column and one row) and font size, every offset `mark_damaged` passes to
`damage_cell` — hence every index it writes in the `damages` and `prev`
arrays — is strictly below `cols * rows`; `bblit_draw_pointer` calls
`mark_damaged` with clamped coordinates, which are covered by the
quantification over all `x`, `y`. -/
theorem c10_mark_damaged_in_bounds (tc : TxtConf) (x y : Nat)
    (hc : 1 ≤ tc.cols) (hr : 1 ≤ tc.rows) :
    ∀ o ∈ mark_damaged_offsets tc x y, o < tc.cols * tc.rows := by
  obtain ⟨hpx, hpy⟩ := pointer_cell_pos_le tc x y
  intro o ho
  simp only [mark_damaged_offsets] at ho
  set px := (pointer_cell_pos tc x y).1 with hpxd
  set py := (pointer_cell_pos tc x y).2 with hpyd
  have hb : py * tc.cols ≤ (tc.rows - 1) * tc.cols := Nat.mul_le_mul_right _ hpy
  have hcr : (tc.rows - 1) * tc.cols + tc.cols = tc.rows * tc.cols := by
    have h1 : tc.rows - 1 + 1 = tc.rows := by omega
    calc (tc.rows - 1) * tc.cols + tc.cols = (tc.rows - 1 + 1) * tc.cols := by ring
      _ = tc.rows * tc.cols := by rw [h1]
  have hcm : tc.cols * tc.rows = tc.rows * tc.cols := Nat.mul_comm _ _
  have b0 : px + py * tc.cols < tc.cols * tc.rows := by omega
  have b1 : px + 1 < tc.cols → px + py * tc.cols + 1 < tc.cols * tc.rows := by
    intro h
    omega
  have b2 : py + 1 < tc.rows → px + py * tc.cols + tc.cols < tc.cols * tc.rows := by
    intro h
    have hb2 : (py + 1) * tc.cols ≤ (tc.rows - 1) * tc.cols :=
      Nat.mul_le_mul_right _ (by omega)
    have hpc : py * tc.cols + tc.cols = (py + 1) * tc.cols := by ring
    omega
  have b3 : px + 1 < tc.cols → py + 1 < tc.rows →
      px + py * tc.cols + 1 + tc.cols < tc.cols * tc.rows := by
    intro h1 h2
    have hb2 : (py + 1) * tc.cols ≤ (tc.rows - 1) * tc.cols :=
      Nat.mul_le_mul_right _ (by omega)
    have hpc : py * tc.cols + tc.cols = (py + 1) * tc.cols := by ring
    omega
  by_cases h1 : px + 1 < tc.cols <;> by_cases h2 : py + 1 < tc.rows <;>
    simp [h1, h2] at ho
  · rcases ho with rfl | rfl | rfl | rfl
    · exact b0
    · exact b1 h1
    · exact b2 h2
    · exact b3 h1 h2
  · rcases ho with rfl | rfl
    · exact b0
    · exact b1 h1
  · rcases ho with rfl | rfl
    · exact b0
    · exact b2 h2
  · rcases ho with rfl
    exact b0

theorem c10_mark_damaged_in_bounds_witness :
    1 ≤ wTC.cols ∧ 1 ≤ wTC.rows ∧
    ∀ o ∈ mark_damaged_offsets wTC 1000 1000, o < wTC.cols * wTC.rows :=
  ⟨by decide, by decide, c10_mark_damaged_in_bounds wTC 1000 1000 (by decide) (by decide)⟩

theorem align_stride_ge (w a : Nat) (ha : 0 < a) : w ≤ a * ((w + (a - 1)) / a) := by
  have hdm := Nat.div_add_mod (w + (a - 1)) a
  have hr : (w + (a - 1)) % a < a := Nat.mod_lt _ ha
  omega

theorem rotate_right_dims (buf : KBitmap) (a : Nat) :
    (kmscon_rotate_glyph buf .OR_RIGHT a).width = buf.height ∧
    (kmscon_rotate_glyph buf .OR_RIGHT a).height = buf.width := by
  simp [kmscon_rotate_glyph]

theorem kpixel_rotate_right (buf : KBitmap) (a : Nat) (ha : 0 < a) (r c : Nat)
    (hr : r < buf.width) (hc : c < buf.height) :
    kpixel (kmscon_rotate_glyph buf .OR_RIGHT a) r c =
      kpixel buf (buf.height - 1 - c) r := by
  have hwle := align_stride_ge buf.height a ha
  have hcs : c < a * ((buf.height + (a - 1)) / a) := by omega
  have hsp : 0 < a * ((buf.height + (a - 1)) / a) := by omega
  have hdiv : (r * (a * ((buf.height + (a - 1)) / a)) + c) /
      (a * ((buf.height + (a - 1)) / a)) = r := by
    rw [Nat.mul_comm r, Nat.mul_add_div hsp, Nat.div_eq_of_lt hcs]
    omega
  have hmod : (r * (a * ((buf.height + (a - 1)) / a)) + c) %
      (a * ((buf.height + (a - 1)) / a)) = c := by
    rw [Nat.mul_comm r, Nat.mul_add_mod, Nat.mod_eq_of_lt hcs]
  simp only [kmscon_rotate_glyph, kpixel]
  simp only [show ¬((KOrientation.OR_RIGHT = KOrientation.OR_NORMAL) ∨
    (KOrientation.OR_RIGHT = KOrientation.OR_UPSIDE_DOWN)) from by decide, if_neg,
    ite_false]
  simp [hdiv, hmod, hr, hc]

/-- C4: rotating a bitmap with `kmscon_rotate_glyph` in RIGHT orientation
four times in sequence restores the original width, height, and every pixel
inside the bitmap (stride padding may differ, pixels do not). -/
theorem c4_rotate_right_roundtrip (buf : KBitmap) (a : Nat) (ha : 0 < a) :
    (kmscon_rotate_glyph (kmscon_rotate_glyph (kmscon_rotate_glyph
      (kmscon_rotate_glyph buf .OR_RIGHT a) .OR_RIGHT a) .OR_RIGHT a) .OR_RIGHT a).width =
      buf.width ∧
    (kmscon_rotate_glyph (kmscon_rotate_glyph (kmscon_rotate_glyph
      (kmscon_rotate_glyph buf .OR_RIGHT a) .OR_RIGHT a) .OR_RIGHT a) .OR_RIGHT a).height =
      buf.height ∧
    (∀ r c, r < buf.height → c < buf.width →
      kpixel (kmscon_rotate_glyph (kmscon_rotate_glyph (kmscon_rotate_glyph
        (kmscon_rotate_glyph buf .OR_RIGHT a) .OR_RIGHT a) .OR_RIGHT a) .OR_RIGHT a) r c =
        kpixel buf r c) := by
  obtain ⟨w1, h1⟩ := rotate_right_dims buf a
  obtain ⟨w2, h2⟩ := rotate_right_dims (kmscon_rotate_glyph buf .OR_RIGHT a) a
  obtain ⟨w3, h3⟩ := rotate_right_dims
    (kmscon_rotate_glyph (kmscon_rotate_glyph buf .OR_RIGHT a) .OR_RIGHT a) a
  obtain ⟨w4, h4⟩ := rotate_right_dims
    (kmscon_rotate_glyph (kmscon_rotate_glyph (kmscon_rotate_glyph buf .OR_RIGHT a)
      .OR_RIGHT a) .OR_RIGHT a) a
  have W2 : (kmscon_rotate_glyph (kmscon_rotate_glyph buf .OR_RIGHT a)
      .OR_RIGHT a).width = buf.width := by rw [w2, h1]
  have H2 : (kmscon_rotate_glyph (kmscon_rotate_glyph buf .OR_RIGHT a)
      .OR_RIGHT a).height = buf.height := by rw [h2, w1]
  have W3 : (kmscon_rotate_glyph (kmscon_rotate_glyph (kmscon_rotate_glyph buf .OR_RIGHT a)
      .OR_RIGHT a) .OR_RIGHT a).width = buf.height := by rw [w3, H2]
  have H3 : (kmscon_rotate_glyph (kmscon_rotate_glyph (kmscon_rotate_glyph buf .OR_RIGHT a)
      .OR_RIGHT a) .OR_RIGHT a).height = buf.width := by rw [h3, W2]
  refine ⟨by rw [w4, H3], by rw [h4, W3], ?_⟩
  intro r c hrh hcw
  rw [kpixel_rotate_right _ a ha r c (by rw [W3]; omega) (by rw [H3]; omega)]
  rw [H3]
  rw [kpixel_rotate_right _ a ha (buf.width - 1 - c) r (by rw [W2]; omega)
    (by rw [H2]; omega)]
  rw [H2]
  rw [kpixel_rotate_right _ a ha (buf.height - 1 - r) (buf.width - 1 - c)
    (by rw [w1]; omega) (by rw [h1]; omega)]
  rw [h1]
  rw [kpixel_rotate_right buf a ha (buf.width - 1 - (buf.width - 1 - c))
    (buf.height - 1 - r) (by omega) (by omega)]
  have e1 : buf.height - 1 - (buf.height - 1 - r) = r := by omega
  have e2 : buf.width - 1 - (buf.width - 1 - c) = c := by omega
  rw [e1, e2]

theorem c4_rotate_right_roundtrip_witness :
    0 < 1 ∧
    ((kmscon_rotate_glyph (kmscon_rotate_glyph (kmscon_rotate_glyph
      (kmscon_rotate_glyph ⟨2, 3, 2, fun n => n⟩ .OR_RIGHT 1) .OR_RIGHT 1) .OR_RIGHT 1)
      .OR_RIGHT 1).width = (⟨2, 3, 2, fun n => n⟩ : KBitmap).width ∧
    (kmscon_rotate_glyph (kmscon_rotate_glyph (kmscon_rotate_glyph
      (kmscon_rotate_glyph ⟨2, 3, 2, fun n => n⟩ .OR_RIGHT 1) .OR_RIGHT 1) .OR_RIGHT 1)
      .OR_RIGHT 1).height = (⟨2, 3, 2, fun n => n⟩ : KBitmap).height ∧
    (∀ r c, r < (⟨2, 3, 2, fun n => n⟩ : KBitmap).height →
      c < (⟨2, 3, 2, fun n => n⟩ : KBitmap).width →
      kpixel (kmscon_rotate_glyph (kmscon_rotate_glyph (kmscon_rotate_glyph
        (kmscon_rotate_glyph ⟨2, 3, 2, fun n => n⟩ .OR_RIGHT 1) .OR_RIGHT 1) .OR_RIGHT 1)
        .OR_RIGHT 1) r c = kpixel ⟨2, 3, 2, fun n => n⟩ r c)) :=
  ⟨by decide, c4_rotate_right_roundtrip ⟨2, 3, 2, fun n => n⟩ 1 (by decide)⟩

theorem bbulk_prepare_changed (tc : TxtConf) (bb : BBState) (a : TsmAttr)
    (hch : ¬(bb.attr = a)) :
    (bbulk_prepare tc bb a false false).2 = true ∧
    (bbulk_prepare tc bb a false false).1.attr = a ∧
    (bbulk_prepare tc bb a false false).1.redraw_margin = 1 ∧
    (∀ i, i < tc.cols * tc.rows →
      (bbulk_prepare tc bb a false false).1.damages i = true ∧
      ((bbulk_prepare tc bb a false false).1.prev i).id = ID_DAMAGED) := by
  obtain ⟨p1, p2, p3, p4, p5, p6⟩ := foldl_damage_cell_range
    { bb with
      reqs := ([] : List BlendReq)
      damage_rect_list := ([] : List VRect)
      attr := a
      redraw_margin := 2 } (tc.cols * tc.rows)
  refine ⟨?_, ?_, ?_, ?_⟩
  · simp [bbulk_prepare, hch]
  · simp only [bbulk_prepare, hch, if_false, ite_false]
    simp [p4]
  · simp only [bbulk_prepare, hch, if_false, ite_false]
    simp [p5]
  · intro i hi
    constructor
    · simp only [bbulk_prepare, hch, if_false, ite_false]
      simp [p2 i, hi]
    · simp only [bbulk_prepare, hch, if_false, ite_false]
      simp [p1 i, hi]

theorem bbulk_prepare_margin_on (tc : TxtConf) (bb : BBState) (a : TsmAttr)
    (ha : bb.attr = a) (hm : bb.redraw_margin ≠ 0) :
    (bbulk_prepare tc bb a false false).2 = true ∧
    (bbulk_prepare tc bb a false false).1.attr = a ∧
    (bbulk_prepare tc bb a false false).1.redraw_margin = bb.redraw_margin - 1 ∧
    (∀ i, i < tc.cols * tc.rows →
      (bbulk_prepare tc bb a false false).1.damages i = true ∧
      ((bbulk_prepare tc bb a false false).1.prev i).id = ID_DAMAGED) := by
  obtain ⟨p1, p2, p3, p4, p5, p6⟩ := foldl_damage_cell_range
    { bb with
      reqs := ([] : List BlendReq)
      damage_rect_list := ([] : List VRect)
      attr := a
      redraw_margin := bb.redraw_margin } (tc.cols * tc.rows)
  refine ⟨?_, ?_, ?_, ?_⟩
  · simp [bbulk_prepare, ha, hm]
  · simp only [bbulk_prepare, ha, if_true, ite_true]
    simp [hm, p4]
  · simp only [bbulk_prepare, ha, if_true, ite_true]
    simp [hm, p5]
  · intro i hi
    constructor
    · simp only [bbulk_prepare, ha, if_true, ite_true]
      simp [hm, p2 i, hi]
    · simp only [bbulk_prepare, ha, if_true, ite_true]
      simp [hm, p1 i, hi]

/-- C7: a `prepare` whose default attributes differ from the previous frame's
fills the whole screen and damages every cell, the immediately following
`prepare` (same new attributes, no display-initiated redraw) does so again,
and the forced full-damage behaviour stops there: the third `prepare` does
not fill, the margin counter having gone 2 → 1 → 0. -/
theorem c7_attr_change_forces_two_full_frames (tc : TxtConf) (bb : BBState) (a : TsmAttr)
    (hch : bb.attr ≠ a) :
    (bbulk_prepare tc bb a false false).2 = true ∧
    (∀ i, i < tc.cols * tc.rows →
      (bbulk_prepare tc bb a false false).1.damages i = true ∧
      ((bbulk_prepare tc bb a false false).1.prev i).id = ID_DAMAGED) ∧
    (bbulk_prepare tc bb a false false).1.redraw_margin = 1 ∧
    (bbulk_prepare tc (bbulk_prepare tc bb a false false).1 a false false).2 = true ∧
    (∀ i, i < tc.cols * tc.rows →
      (bbulk_prepare tc (bbulk_prepare tc bb a false false).1 a false false).1.damages i =
        true ∧
      ((bbulk_prepare tc (bbulk_prepare tc bb a false false).1 a false
        false).1.prev i).id = ID_DAMAGED) ∧
    (bbulk_prepare tc (bbulk_prepare tc bb a false false).1 a false
      false).1.redraw_margin = 0 ∧
    (bbulk_prepare tc (bbulk_prepare tc (bbulk_prepare tc bb a false false).1 a false
      false).1 a false false).2 = false := by
  obtain ⟨f1, a1, m1, d1⟩ := bbulk_prepare_changed tc bb a hch
  obtain ⟨f2, a2, m2, d2⟩ := bbulk_prepare_margin_on tc
    (bbulk_prepare tc bb a false false).1 a a1 (by rw [m1]; omega)
  rw [m1] at m2
  have m2' : (bbulk_prepare tc (bbulk_prepare tc bb a false false).1 a false
      false).1.redraw_margin = 0 := by
    rw [m2]
  have f3 : (bbulk_prepare tc (bbulk_prepare tc (bbulk_prepare tc bb a false false).1 a
      false false).1 a false false).2 = false := by
    rw [bbulk_prepare_quiet tc _ a a2 m2']
  exact ⟨f1, d1, m1, f2, d2, m2', f3⟩

theorem c7_attr_change_forces_two_full_frames_witness :
    wBB.attr ≠ (⟨1, 0, 0, 0, 0, 0, false, false, false, false⟩ : TsmAttr) ∧
    ((bbulk_prepare wTC wBB ⟨1, 0, 0, 0, 0, 0, false, false, false, false⟩
        false false).2 = true ∧
      (∀ i, i < wTC.cols * wTC.rows →
        (bbulk_prepare wTC wBB ⟨1, 0, 0, 0, 0, 0, false, false, false, false⟩
          false false).1.damages i = true ∧
        ((bbulk_prepare wTC wBB ⟨1, 0, 0, 0, 0, 0, false, false, false, false⟩
          false false).1.prev i).id = ID_DAMAGED) ∧
      (bbulk_prepare wTC wBB ⟨1, 0, 0, 0, 0, 0, false, false, false, false⟩
        false false).1.redraw_margin = 1 ∧
      (bbulk_prepare wTC (bbulk_prepare wTC wBB
        ⟨1, 0, 0, 0, 0, 0, false, false, false, false⟩ false false).1
        ⟨1, 0, 0, 0, 0, 0, false, false, false, false⟩ false false).2 = true ∧
      (∀ i, i < wTC.cols * wTC.rows →
        (bbulk_prepare wTC (bbulk_prepare wTC wBB
          ⟨1, 0, 0, 0, 0, 0, false, false, false, false⟩ false false).1
          ⟨1, 0, 0, 0, 0, 0, false, false, false, false⟩ false false).1.damages i = true ∧
        ((bbulk_prepare wTC (bbulk_prepare wTC wBB
          ⟨1, 0, 0, 0, 0, 0, false, false, false, false⟩ false false).1
          ⟨1, 0, 0, 0, 0, 0, false, false, false, false⟩ false
          false).1.prev i).id = ID_DAMAGED) ∧
      (bbulk_prepare wTC (bbulk_prepare wTC wBB
        ⟨1, 0, 0, 0, 0, 0, false, false, false, false⟩ false false).1
        ⟨1, 0, 0, 0, 0, 0, false, false, false, false⟩ false
        false).1.redraw_margin = 0 ∧
      (bbulk_prepare wTC (bbulk_prepare wTC (bbulk_prepare wTC wBB
        ⟨1, 0, 0, 0, 0, 0, false, false, false, false⟩ false false).1
        ⟨1, 0, 0, 0, 0, 0, false, false, false, false⟩ false false).1
        ⟨1, 0, 0, 0, 0, 0, false, false, false, false⟩ false false).2 = false) :=
  ⟨by decide,
    c7_attr_change_forces_two_full_frames wTC wBB
      ⟨1, 0, 0, 0, 0, 0, false, false, false, false⟩ (by decide)⟩

/-- C5 (code bug): after `set` the glyph-table pointers are non-NULL; the
first `unset` frees them but does not NULL them (only the four array
pointers are NULLed), so a second `unset` passes the same stale pointers to
`shl_hashtable_free` again — it performs frees (a double free) even though
the struct fields it leaves behind are unchanged. -/
theorem c5_unset_twice_frees_tables_again (h : KHeap) (g bg r p d dr : Nat) :
    (bbulk_unset (bbulk_unset h ⟨some g, some bg, some r, some p, some d, some dr⟩).1
      (bbulk_unset h ⟨some g, some bg, some r, some p, some d, some dr⟩).2.1).2.2 =
        [g, bg] ∧
    (bbulk_unset (bbulk_unset h ⟨some g, some bg, some r, some p, some d, some dr⟩).1
      (bbulk_unset h ⟨some g, some bg, some r, some p, some d, some dr⟩).2.1).2.2 ≠ [] ∧
    g ∈ (bbulk_unset h ⟨some g, some bg, some r, some p, some d, some dr⟩).2.2 ∧
    bg ∈ (bbulk_unset h ⟨some g, some bg, some r, some p, some d, some dr⟩).2.2 ∧
    (bbulk_unset (bbulk_unset h ⟨some g, some bg, some r, some p, some d, some dr⟩).1
      (bbulk_unset h ⟨some g, some bg, some r, some p, some d, some dr⟩).2.1).2.1 =
      (bbulk_unset h ⟨some g, some bg, some r, some p, some d, some dr⟩).2.1 := by
  simp [bbulk_unset, bbulk_unset_frees]

theorem bbulk_unset_eval (h : KHeap) (g bg r p d dr : Nat) :
    bbulk_unset h ⟨some g, some bg, some r, some p, some d, some dr⟩ =
      (⟨h.next, (((((h.live.erase g).erase bg).erase dr).erase r).erase d).erase p⟩,
       ⟨some g, some bg, none, none, none, none⟩,
       [g, bg, dr, r, d, p]) := by
  simp [bbulk_unset, bbulk_unset_frees, hfree]

theorem bbulk_unset_eval2 (h : KHeap) (g bg : Nat) :
    bbulk_unset h ⟨some g, some bg, none, none, none, none⟩ =
      (⟨h.next, (h.live.erase g).erase bg⟩,
       ⟨some g, some bg, none, none, none, none⟩,
       [g, bg]) := by
  simp [bbulk_unset, bbulk_unset_frees, hfree]

theorem bbulk_set_eval (h : KHeap) (bb : BBPtrs) (sw sh : Nat) (hz : ¬(sw = 0 ∨ sh = 0)) :
    bbulk_set h bb sw sh =
      (⟨(bbulk_unset h bb).1.next + 6,
        insert ((bbulk_unset h bb).1.next + 5) (insert ((bbulk_unset h bb).1.next + 4)
          (insert ((bbulk_unset h bb).1.next + 3) (insert ((bbulk_unset h bb).1.next + 2)
            (insert ((bbulk_unset h bb).1.next + 1)
              (insert (bbulk_unset h bb).1.next (bbulk_unset h bb).1.live)))))⟩,
       ⟨some ((bbulk_unset h bb).1.next + 4), some ((bbulk_unset h bb).1.next + 5),
        some (bbulk_unset h bb).1.next, some ((bbulk_unset h bb).1.next + 1),
        some ((bbulk_unset h bb).1.next + 2), some ((bbulk_unset h bb).1.next + 3)⟩,
       (bbulk_unset h bb).2.2, none) := by
  simp only [bbulk_set, halloc]
  rw [if_neg hz]

theorem bbulk_set_eval0 (h : KHeap) (bb : BBPtrs) (sw sh : Nat) (hz : sw = 0 ∨ sh = 0) :
    bbulk_set h bb sw sh =
      ((bbulk_unset h bb).1, ⟨none, none, none, none, none, none⟩,
       (bbulk_unset h bb).2.2, some (-22)) := by
  simp only [bbulk_set, halloc]
  rw [if_pos hz]

/-- C6: for an already-set renderer (all six allocations present, ids below
the allocator's next fresh id), calling `set` again first frees exactly
those six allocations — glyph tables, damage rectangles, requests, damage
flags, cell records, each once — before allocating, produces exactly the
heap, pointer fields and status that `set` after an explicit `unset` would,
and leaves none of the six prior allocations live: no leak. -/
theorem c6_set_twice_equals_set_unset_set (h : KHeap) (g bg r p d dr sw sh : Nat)
    (hg : g < h.next) (hbg : bg < h.next) (hdr : dr < h.next) (hr : r < h.next)
    (hd : d < h.next) (hp : p < h.next) :
    (bbulk_set h ⟨some g, some bg, some r, some p, some d, some dr⟩ sw sh).2.2.1 =
      [g, bg, dr, r, d, p] ∧
    (bbulk_set h ⟨some g, some bg, some r, some p, some d, some dr⟩ sw sh).1 =
      (bbulk_set (bbulk_unset h ⟨some g, some bg, some r, some p, some d, some dr⟩).1
        (bbulk_unset h ⟨some g, some bg, some r, some p, some d, some dr⟩).2.1 sw sh).1 ∧
    (bbulk_set h ⟨some g, some bg, some r, some p, some d, some dr⟩ sw sh).2.1 =
      (bbulk_set (bbulk_unset h ⟨some g, some bg, some r, some p, some d, some dr⟩).1
        (bbulk_unset h ⟨some g, some bg, some r, some p, some d, some dr⟩).2.1 sw sh).2.1 ∧
    (bbulk_set h ⟨some g, some bg, some r, some p, some d, some dr⟩ sw sh).2.2.2 =
      (bbulk_set (bbulk_unset h ⟨some g, some bg, some r, some p, some d, some dr⟩).1
        (bbulk_unset h ⟨some g, some bg, some r, some p, some d, some dr⟩).2.1 sw
        sh).2.2.2 ∧
    g ∉ (bbulk_set h ⟨some g, some bg, some r, some p, some d, some dr⟩ sw sh).1.live ∧
    bg ∉ (bbulk_set h ⟨some g, some bg, some r, some p, some d, some dr⟩ sw sh).1.live ∧
    dr ∉ (bbulk_set h ⟨some g, some bg, some r, some p, some d, some dr⟩ sw sh).1.live ∧
    r ∉ (bbulk_set h ⟨some g, some bg, some r, some p, some d, some dr⟩ sw sh).1.live ∧
    d ∉ (bbulk_set h ⟨some g, some bg, some r, some p, some d, some dr⟩ sw sh).1.live ∧
    p ∉ (bbulk_set h ⟨some g, some bg, some r, some p, some d, some dr⟩ sw sh).1.live := by
  have hgout : g ∉
      ((((((h.live.erase g).erase bg).erase dr).erase r).erase d).erase p) := by
    intro hmemg
    exact Finset.not_mem_erase g h.live (Finset.mem_of_mem_erase (Finset.mem_of_mem_erase
      (Finset.mem_of_mem_erase (Finset.mem_of_mem_erase (Finset.mem_of_mem_erase hmemg)))))
  have hbgout : bg ∉
      ((((((h.live.erase g).erase bg).erase dr).erase r).erase d).erase p) := by
    intro hmembg
    exact Finset.not_mem_erase bg (h.live.erase g) (Finset.mem_of_mem_erase
      (Finset.mem_of_mem_erase (Finset.mem_of_mem_erase (Finset.mem_of_mem_erase hmembg))))
  have hdrout : dr ∉
      ((((((h.live.erase g).erase bg).erase dr).erase r).erase d).erase p) := by
    intro hmemdr
    exact Finset.not_mem_erase dr ((h.live.erase g).erase bg) (Finset.mem_of_mem_erase
      (Finset.mem_of_mem_erase (Finset.mem_of_mem_erase hmemdr)))
  have hrout : r ∉
      ((((((h.live.erase g).erase bg).erase dr).erase r).erase d).erase p) := by
    intro hmemr
    exact Finset.not_mem_erase r (((h.live.erase g).erase bg).erase dr)
      (Finset.mem_of_mem_erase (Finset.mem_of_mem_erase hmemr))
  have hdout : d ∉
      ((((((h.live.erase g).erase bg).erase dr).erase r).erase d).erase p) := by
    intro hmemd
    exact Finset.not_mem_erase d ((((h.live.erase g).erase bg).erase dr).erase r)
      (Finset.mem_of_mem_erase hmemd)
  have hpout : p ∉
      ((((((h.live.erase g).erase bg).erase dr).erase r).erase d).erase p) :=
    Finset.not_mem_erase p _
  have hEgE : ((((((h.live.erase g).erase bg).erase dr).erase r).erase d).erase p).erase
      g = (((((h.live.erase g).erase bg).erase dr).erase r).erase d).erase p :=
    Finset.erase_eq_of_not_mem hgout
  have hEbgE : ((((((h.live.erase g).erase bg).erase dr).erase r).erase d).erase p).erase
      bg = (((((h.live.erase g).erase bg).erase dr).erase r).erase d).erase p :=
    Finset.erase_eq_of_not_mem hbgout
  have hU := bbulk_unset_eval h g bg r p d dr
  by_cases hz : sw = 0 ∨ sh = 0
  · rw [bbulk_set_eval0 h _ sw sh hz, hU, bbulk_set_eval0 _ _ sw sh hz,
      bbulk_unset_eval2, hEgE, hEbgE]
    exact ⟨rfl, rfl, rfl, rfl, hgout, hbgout, hdrout, hrout, hdout, hpout⟩
  · rw [bbulk_set_eval h _ sw sh hz, hU, bbulk_set_eval _ _ sw sh hz,
      bbulk_unset_eval2, hEgE, hEbgE]
    refine ⟨rfl, rfl, rfl, rfl, ?_, ?_, ?_, ?_, ?_, ?_⟩ <;>
      simp only [Finset.mem_insert] <;>
      push_neg <;>
      refine ⟨by omega, by omega, by omega, by omega, by omega, by omega, ?_⟩
    · exact hgout
    · exact hbgout
    · exact hdrout
    · exact hrout
    · exact hdout
    · exact hpout

theorem c6_set_twice_equals_set_unset_set_witness :
    (1 : Nat) < 10 ∧ (2 : Nat) < 10 ∧ (3 : Nat) < 10 ∧ (4 : Nat) < 10 ∧ (5 : Nat) < 10 ∧
    (6 : Nat) < 10 ∧
    (bbulk_set ⟨10, {1, 2, 3, 4, 5, 6}⟩ ⟨some 1, some 2, some 3, some 4, some 5, some 6⟩
      640 384).2.2.1 = [1, 2, 6, 3, 5, 4] ∧
    (bbulk_set ⟨10, {1, 2, 3, 4, 5, 6}⟩ ⟨some 1, some 2, some 3, some 4, some 5, some 6⟩
      640 384).1 =
      (bbulk_set
        (bbulk_unset ⟨10, {1, 2, 3, 4, 5, 6}⟩
          ⟨some 1, some 2, some 3, some 4, some 5, some 6⟩).1
        (bbulk_unset ⟨10, {1, 2, 3, 4, 5, 6}⟩
          ⟨some 1, some 2, some 3, some 4, some 5, some 6⟩).2.1 640 384).1 :=
  ⟨by decide, by decide, by decide, by decide, by decide, by decide,
    (c6_set_twice_equals_set_unset_set ⟨10, {1, 2, 3, 4, 5, 6}⟩ 1 2 3 4 5 6 640 384
      (by decide) (by decide) (by decide) (by decide) (by decide) (by decide)).1,
    (c6_set_twice_equals_set_unset_set ⟨10, {1, 2, 3, 4, 5, 6}⟩ 1 2 3 4 5 6 640 384
      (by decide) (by decide) (by decide) (by decide) (by decide) (by decide)).2.1⟩

/-- C8: whenever `find_glyph` returns an error — entry allocation failure,
render failure with failing invalid-glyph fallback, rotation failure, or
hashtable-insert failure — it inserts nothing: both glyph tables are exactly
as they were before the call. -/
theorem c8_find_glyph_error_preserves_tables (st : FGState) (env : FGEnv)
    (id len : Nat) (attr : TsmAttr) (e : Int)
    (herr : (find_glyph st env id len attr).2 = .error e) :
    (find_glyph st env id len attr).1.glyphs = st.glyphs ∧
    (find_glyph st env id len attr).1.bold_glyphs = st.bold_glyphs := by
  unfold find_glyph at herr ⊢
  by_cases hb : attr.bold = true
  all_goals simp only [hb, if_true, if_false, ite_true, ite_false,
    Bool.false_eq_true] at herr ⊢
  all_goals split at herr
  all_goals try exact ⟨rfl, rfl⟩
  all_goals split at herr
  all_goals simp_all

theorem c8_find_glyph_error_preserves_tables_witness :
    (find_glyph ⟨[], [], ⟨false, false⟩, ⟨false, false⟩⟩
      ⟨none, .ok (), .ok (), .ok (), .ok (), .ok ()⟩ 7 1 attrZero).2 =
        .error (-12) ∧
    (find_glyph ⟨[], [], ⟨false, false⟩, ⟨false, false⟩⟩
      ⟨none, .ok (), .ok (), .ok (), .ok (), .ok ()⟩ 7 1 attrZero).1.glyphs =
        ([] : GlyphTable) ∧
    (find_glyph ⟨[], [], ⟨false, false⟩, ⟨false, false⟩⟩
      ⟨none, .ok (), .ok (), .ok (), .ok (), .ok ()⟩ 7 1 attrZero).1.bold_glyphs =
        ([] : GlyphTable) :=
  ⟨rfl,
    (c8_find_glyph_error_preserves_tables ⟨[], [], ⟨false, false⟩, ⟨false, false⟩⟩
      ⟨none, .ok (), .ok (), .ok (), .ok (), .ok ()⟩ 7 1 attrZero (-12) rfl).1,
    (c8_find_glyph_error_preserves_tables ⟨[], [], ⟨false, false⟩, ⟨false, false⟩⟩
      ⟨none, .ok (), .ok (), .ok (), .ok (), .ok ()⟩ 7 1 attrZero (-12) rfl).2⟩
